import Mathlib

/-!
Verification development for the telegram-video-sorter repository.

The TypeScript sources are shallowly embedded: strings are `List Char`,
JavaScript numbers are `ℚ`, optional/nullable values are `Option`, and the
JavaScript truthiness tests that the code relies on (`0`, `''`, `undefined`
and `null` are falsy) are modelled explicitly.  Regex-based passes of the
name normalizer are embedded as explicit left-to-right scanners that mirror
the semantics of `String.prototype.replace` with the `g` flag (leftmost
match, greedy quantifiers, ordered alternation, resume after the match).

Sources embedded below:
  * src/unnamed/part_003        (utils/helpers: normalizeFileName, getVideoDuration,
                                 getFileName, getFileSize(MB), handleRateLimit)
  * src/src/utils/video-matching.ts   (matchesVideo)
  * src/src/services/storage.ts       (MessageStorage: saveProcessedVideoName,
                                 deleteVideosFromTopic, calculateSimilarity,
                                 findAllSimilarVideosInTopic, findSimilarVideoInTopic)
  * src/src/services/video-processor.ts (VideoProcessor: processSource,
                                 findAndDeleteDuplicatesInTopic, fetchTopicMessages,
                                 getTopicsToForwardWithDuplicateHandling, forwardToTopics)
-/

set_option maxRecDepth 20000

/-- Strings of the embedded program are lists of characters. -/
abbrev Str := List Char

/-- Convert a Lean string literal to the embedded string type. -/
def strL (s : String) : Str := s.toList

/-- JavaScript whitespace class `\s` (ASCII part plus NBSP; the exotic
Unicode space code points never occur in the inputs considered here). -/
def isJsWs (c : Char) : Bool :=
  c = ' ' || c = '\t' || c = '\n' || c = '\r' || c = '\x0b' || c = '\x0c' || c = '\u00A0'

/-- The separator class `[\s_\-\.]` of the normalizer. -/
def isSepChar (c : Char) : Bool :=
  isJsWs c || c = '_' || c = '-' || c = '.'

/-- Lower-case ASCII letters and digits, the alphabet `[a-z0-9]`. -/
def isLowerAlnum (c : Char) : Bool :=
  ('a' ≤ c && c ≤ 'z') || ('0' ≤ c && c ≤ '9')

/-- ASCII digit test, the regex class `\d`. -/
def isDigitCh (c : Char) : Bool :=
  '0' ≤ c && c ≤ '9'

/-- ASCII model of `String.prototype.toLowerCase` on one character. -/
def jsToLower (c : Char) : Char :=
  if 'A' ≤ c && c ≤ 'Z' then Char.ofNat (c.toNat + 32) else c

/-- ASCII model of `String.prototype.toLowerCase`. -/
def lowerStr (s : Str) : Str := s.map jsToLower

/-- Global regex replacement by the empty string: scan left to right; `m`
reports the length of a match starting at the current position; on a match
of length `n + 1` the scanner resumes after the matched text (the patterns
below never match the empty string, so a reported `0` is treated as no
match).  The fuel argument only drives structural recursion; it is always
called with the length of the string, which suffices because every step
consumes at least one character. -/
def scanReplaceAux (m : Str → Option Nat) : Nat → Str → Str
  | _, [] => []
  | 0, s => s
  | fuel + 1, c :: rest =>
    match m (c :: rest) with
    | some (n + 1) => scanReplaceAux m fuel (rest.drop n)
    | _ => c :: scanReplaceAux m fuel rest

/-- Global regex replacement by the empty string (see `scanReplaceAux`). -/
def scanReplace (m : Str → Option Nat) (s : Str) : Str :=
  scanReplaceAux m s.length s

/-- Optional opening bracket `[\[\(]?`: consumed characters and remainder. -/
def matchOpenBr (s : Str) : Nat × Str :=
  match s with
  | c :: r => if c = '[' || c = '(' then (1, r) else (0, s)
  | [] => (0, [])

/-- Optional closing bracket `[\]\)]?`: number of consumed characters. -/
def matchCloseBr (s : Str) : Nat :=
  match s with
  | c :: _ => if c = ']' || c = ')' then 1 else 0
  | [] => 0

/-- Consume exactly `k` digits, returning the remainder. -/
def takeDigits (k : Nat) (s : Str) : Option Str :=
  match k, s with
  | 0, s => some s
  | k + 1, c :: r => if isDigitCh c then takeDigits k r else none
  | _ + 1, [] => none

/-- Matcher for `[\[\(]?\d{3,4}p[\]\)]?` at the head of the string (the
greedy `\d{3,4}` tries four digits before three).  An opening bracket can
never begin the digit run, so trying the bracketed form first is faithful
to the regex backtracking. -/
def matchResAt (s : Str) : Option Nat :=
  let p := matchOpenBr s
  let tryLen : Nat → Option Nat := fun k =>
    match takeDigits k p.2 with
    | some ('p' :: r) => some (p.1 + k + 1 + matchCloseBr r)
    | _ => none
  (tryLen 4).orElse (fun _ => tryLen 3)

/-- Matcher for `[\[\(]?\d{1}k[\]\)]?` at the head of the string. -/
def matchKAt (s : Str) : Option Nat :=
  let p := matchOpenBr s
  match p.2 with
  | d :: 'k' :: r => if isDigitCh d then some (p.1 + 2 + matchCloseBr r) else none
  | _ => none

/-- Matcher for `[\[\(]?(a₁|a₂|…)[\]\)]?` at the head of the string; the
alternatives are tried in the given order, exactly as the regex engine
does.  No alternative starts with a bracket character, so consuming the
optional opening bracket first is faithful. -/
def matchAltAt (alts : List Str) (s : Str) : Option Nat :=
  let p := matchOpenBr s
  match alts.find? (fun a => a.isPrefixOf p.2) with
  | some a => some (p.1 + a.length + matchCloseBr (p.2.drop a.length))
  | none => none

/-- Alternatives of the quality pass `(uhd|fhd|hd|sd)`, in regex order. -/
def qualAlts : List Str := [strL "uhd", strL "fhd", strL "hd", strL "sd"]

/-- Alternatives of the codec pass `(x264|x265|hevc|h264|h265|avc|av1)`. -/
def codecAlts : List Str :=
  [strL "x264", strL "x265", strL "hevc", strL "h264", strL "h265", strL "avc", strL "av1"]

/-- Alternatives of the audio pass `(aac|ac3|dts|mp3|flac)`. -/
def audioAlts : List Str := [strL "aac", strL "ac3", strL "dts", strL "mp3", strL "flac"]

/-- Alternatives of the domain pass `(xxx|com|net|org)`. -/
def domainAlts : List Str := [strL "xxx", strL "com", strL "net", strL "org"]

/-- Matcher for `\.(xxx|com|net|org)($|[\s\-_\.])` at the head of the
string; the trailing separator, when present, is part of the match (the
alternatives differ pairwise in their first character, so only the first
prefix match can succeed). -/
def matchDomainAt (s : Str) : Option Nat :=
  match s with
  | c0 :: r =>
    if c0 = '.' then
      match domainAlts.find? (fun a => a.isPrefixOf r) with
      | some a =>
        match r.drop a.length with
        | [] => some (1 + a.length)
        | c :: _ => if isSepChar c then some (1 + a.length + 1) else none
      | none => none
    else none
  | [] => none

/-- The `web-?dl` alternative inside `[...]`: after `web`, the greedy `-?`
first tries to consume a dash; both forms must be followed by `dl]`. -/
def tryWebDl (r : Str) : Option Nat :=
  if (strL "web").isPrefixOf r then
    match r.drop 3 with
    | '-' :: rest =>
      if (strL "dl]").isPrefixOf rest then some 8
      else none
    | rest =>
      if (strL "dl]").isPrefixOf rest then some 7
      else none
  else none

/-- Try one plain alternative of the release pass: the word must be
followed by the literal closing bracket. -/
def tryRelWord (a r : Str) : Option Nat :=
  if a.isPrefixOf r then
    match r.drop a.length with
    | ']' :: _ => some (1 + a.length + 1)
    | _ => none
  else none

/-- Matcher for `\[(rss|web-?dl|hdtv|bluray|brrip|webrip)\]` at the head of
the string, alternatives tried in regex order. -/
def matchRelAt (s : Str) : Option Nat :=
  match s with
  | c0 :: r =>
    if c0 = '[' then
      ((tryRelWord (strL "rss") r).orElse fun _ =>
       (tryWebDl r).orElse fun _ =>
       (tryRelWord (strL "hdtv") r).orElse fun _ =>
       (tryRelWord (strL "bluray") r).orElse fun _ =>
       (tryRelWord (strL "brrip") r).orElse fun _ =>
       (tryRelWord (strL "webrip") r))
    else none
  | [] => none

/-- Anchored pass `\.(mp4|mkv|avi|mov|wmv|flv|webm)$`: strip one trailing
known video extension (the anchor makes at most one match possible). -/
def videoExts : List Str :=
  [strL "mp4", strL "mkv", strL "avi", strL "mov", strL "wmv", strL "flv", strL "webm"]

/-- Strip a trailing `.ext` for a known video extension. -/
def stripExt (s : Str) : Str :=
  match videoExts.find? (fun e => List.isSuffixOf ('.' :: e) s) with
  | some e => s.take (s.length - (e.length + 1))
  | none => s

/-- Collapse every maximal run of characters satisfying `p` to a single
space; fuel-driven like `scanReplaceAux`. -/
def collapseRunsAux (p : Char → Bool) : Nat → Str → Str
  | _, [] => []
  | 0, s => s
  | fuel + 1, c :: rest =>
    if p c then ' ' :: collapseRunsAux p fuel (rest.dropWhile p)
    else c :: collapseRunsAux p fuel rest

/-- Collapse every maximal run of `[\s_\-\.]` to a single space, the pass
`replace(/[\s_\-\.]+/g, ' ')`. -/
def collapseSeps (s : Str) : Str := collapseRunsAux isSepChar s.length s

/-- Collapse every maximal run of `\s` to a single space, the pass
`replace(/\s+/g, ' ')`. -/
def collapseWs (s : Str) : Str := collapseRunsAux isJsWs s.length s

/-- Model of `String.prototype.trim`: drop whitespace from both ends. -/
def trimStr (s : Str) : Str :=
  ((s.dropWhile isJsWs).reverse.dropWhile isJsWs).reverse

/-- The pass `replace(/[^a-z0-9\s]/g, '')`: keep letters, digits, spaces. -/
def keepLowAlnumWs (s : Str) : Str :=
  s.filter (fun c => isLowerAlnum c || isJsWs c)

/-- The pass `replace(/\s+/g, '')`: remove every whitespace character. -/
def stripAllWs (s : Str) : Str :=
  s.filter (fun c => !isJsWs c)

/-- Embedding of `normalizeFileName` (src/unnamed/part_003, lines 27-63):
lowercase, strip a trailing video extension, remove resolution / `Nk` /
quality / codec / audio tokens (optionally bracketed), remove domain
suffixes, remove bracketed release tags, collapse separator runs to a
space, drop the remaining special characters, and finally remove every
space.  Each `replace` call of the source is one pass below, in source
order. -/
def normalizeFileName (s : Str) : Str :=
  let n1 := stripExt (lowerStr s)
  let n2 := scanReplace matchResAt n1
  let n3 := scanReplace matchKAt n2
  let n4 := scanReplace (matchAltAt qualAlts) n3
  let n5 := scanReplace (matchAltAt codecAlts) n4
  let n6 := scanReplace (matchAltAt audioAlts) n5
  let n7 := scanReplace matchDomainAt n6
  let n8 := scanReplace matchRelAt n7
  let n9 := trimStr (collapseWs (collapseSeps n8))
  trimStr (stripAllWs (keepLowAlnumWs n9))


/-! ## Helpers (src/unnamed/part_003) and protocol data model -/

/-- Mirror of the `VideoDocument` attribute entries of types/config.ts. -/
structure DocAttr where
  className : Str
  duration : Option ℚ := none
  fileName : Option Str := none
  w : Option Nat := none
  h : Option Nat := none
deriving DecidableEq

/-- Mirror of `VideoDocument` (types/config.ts).  The TypeScript `size` is
a decimal string parsed with `Number.parseInt`; it is modelled as the
parsed number directly. -/
structure VideoDocument where
  attributes : Option (List DocAttr) := none
  size : Option Nat := none
  mimeType : Option Str := none
deriving DecidableEq

/-- Mirror of the `media` field of `VideoMessage` (types/config.ts);
`video?: boolean` is the protocol video flag, absent and `false` are
indistinguishable under the truthiness tests the code performs. -/
structure MsgMedia where
  document : Option VideoDocument := none
  video : Bool := false
deriving DecidableEq

/-- Mirror of `VideoMessage` (types/config.ts). -/
structure VideoMessage where
  media : Option MsgMedia := none
  message : Option Str := none
  id : Nat := 0
deriving DecidableEq

/-- Embedding of `getVideoDuration` (part_003 lines 3-13). -/
def getVideoDuration (doc : Option VideoDocument) : Option ℚ :=
  match doc with
  | none => none
  | some d =>
    match d.attributes with
    | none => none
    | some attrs =>
      (attrs.find? (fun a => a.className == strL "DocumentAttributeVideo")).bind (·.duration)

/-- Embedding of `getFileName` (part_003 lines 15-25). -/
def getFileName (doc : Option VideoDocument) : Str :=
  match doc with
  | none => []
  | some d =>
    match d.attributes with
    | none => []
    | some attrs =>
      match attrs.find? (fun a => a.className == strL "DocumentAttributeFilename") with
      | some a => a.fileName.getD []
      | none => []

/-- Embedding of `getFileSize` (part_003 lines 65-70); an absent or empty
size string yields 0, and `parseInt` of the stored decimal string is the
stored number. -/
def getFileSize (doc : Option VideoDocument) : Nat :=
  match doc with
  | none => 0
  | some d => d.size.getD 0

/-- Embedding of `getFileSizeMB` (part_003 lines 72-74). -/
def getFileSizeMB (doc : Option VideoDocument) : ℚ :=
  (getFileSize doc : ℚ) / 1024 / 1024

/-- Modelled from the spec: `getVideoResolution` is imported by
video-processor.ts from utils/helpers, but its definition is not among the
provided sources.  Spec §3 says width and height are "both absent or both
present"; they live on the document's video attribute (`w`/`h` in
types/config.ts), and the function returns an object or null. -/
def getVideoResolution (doc : Option VideoDocument) : Option (Nat × Nat) :=
  match doc with
  | none => none
  | some d =>
    match d.attributes with
    | none => none
    | some attrs =>
      match attrs.find? (fun a => a.className == strL "DocumentAttributeVideo") with
      | some a =>
        match a.w, a.h with
        | some w, some h => some (w, h)
        | _, _ => none
      | none => none

/-- Modelled from the spec: `getMimeType` is imported by video-processor.ts
but its definition is not among the provided sources.  Spec §3 lists
`mimeType` (string or absent), carried by the document. -/
def getMimeType (doc : Option VideoDocument) : Option Str :=
  doc.bind (·.mimeType)

/-- JavaScript truthiness of an optional number: 0, null and undefined are
falsy. -/
def truthyQ (x : Option ℚ) : Bool :=
  match x with
  | some v => decide (v ≠ 0)
  | none => false

/-- JavaScript truthiness of an optional integer. -/
def truthyNat (x : Option Nat) : Bool :=
  match x with
  | some v => decide (v ≠ 0)
  | none => false

/-- JavaScript truthiness of an optional string: the empty string, null
and undefined are falsy. -/
def truthyStr (x : Option Str) : Bool :=
  match x with
  | some v => !v.isEmpty
  | none => false

/-- Shape of the protocol errors inspected by the rate-limit driver. -/
structure RpcError where
  errorMessage : Option Str := none
  code : Option Int := none
  seconds : Option ℚ := none
deriving DecidableEq

/-- Embedding of `handleRateLimit` (part_003 lines 86-104).  The returned
pair is (shouldRetry, sleep performed in milliseconds; `none` when the
function returns without sleeping).  `error.seconds ? a : b` uses
JavaScript truthiness, so an explicit `seconds = 0` falls back to the
exponential wait. -/
def handleRateLimit (e : RpcError) (retryCount : Nat) : Bool × Option ℚ :=
  if e.errorMessage == some (strL "FLOOD_WAIT") || e.code == some 420 then
    let waitTime : ℚ :=
      match e.seconds with
      | some s => if s ≠ 0 then s * 1000 else 2 ^ retryCount * 5000
      | none => 2 ^ retryCount * 5000
    (decide (retryCount < 3), some waitTime)
  else
    (false, none)

/-! ## Video predicate (src/src/utils/video-matching.ts) -/

/-- Substring containment, the model of `String.prototype.includes`. -/
def hasSubstr : Str → Str → Bool
  | [], needle => needle.isEmpty
  | c :: t, needle => needle.isPrefixOf (c :: t) || hasSubstr t needle

/-- Embedding of `matchesVideo` (video-matching.ts lines 4-43), the
variant imported by video-processor.ts.  Note the acceptance condition of
line 12: `if (!media?.document || !media.video) return []` requires the
protocol `video` flag in conjunction with the document; the video
attribute only enters through the duration test of line 21. -/
def matchesVideo (msg : VideoMessage) (matchList exclusions : List Str)
    (minDuration : ℚ) : List Str :=
  match msg.media with
  | none => []
  | some media =>
    match media.document with
    | none => []
    | some document =>
      if !media.video then []
      else
        let messageText := lowerStr (msg.message.getD [])
        let fileName := lowerStr (getFileName (some document))
        match getVideoDuration (some document) with
        | none => []
        | some d =>
          if d = 0 || d < minDuration then []
          else
            let combinedText := messageText ++ [' '] ++ fileName
            if exclusions.any (fun e => hasSubstr combinedText (lowerStr e)) then []
            else matchList.filter (fun m => hasSubstr combinedText (lowerStr m))

/-! ## Persistent store (src/src/services/storage.ts) -/

/-- One row of the `processed_videos` table.  The `UNIQUE (normalized_name,
topic_name)` constraint is reflected by the insert operation below. -/
structure VideoRow where
  fileName : Str
  normalizedName : Str
  topicName : Str
  duration : Option ℚ := none
  sizeMB : Option ℚ := none
  width : Option Nat := none
  height : Option Nat := none
  mimeType : Option Str := none
deriving DecidableEq

/-- The effect of `INSERT OR IGNORE` under the table's
`UNIQUE (normalized_name, topic_name)` constraint: a row whose key is
already present leaves the table unchanged; otherwise the row is appended
(rows are kept in insertion order). -/
def insertIgnoreRow (rows : List VideoRow) (r : VideoRow) : List VideoRow :=
  if rows.any (fun q => q.normalizedName == r.normalizedName && q.topicName == r.topicName) then rows
  else rows ++ [r]

/-- Embedding of `saveProcessedVideoName` (storage.ts lines 216-228): the
normalized name defaults to the lowercased file name when the argument is
absent or empty (JavaScript `||`), and the prepared statement is
`INSERT OR IGNORE` (see `insertIgnoreRow`). -/
def saveProcessedVideoName (rows : List VideoRow) (fileName topicName : Str)
    (duration sizeMB : Option ℚ) (normalizedName : Option Str)
    (width height : Option Nat) (mimeType : Option Str) : List VideoRow :=
  let normalized :=
    match normalizedName with
    | some n => if n.isEmpty then lowerStr fileName else n
    | none => lowerStr fileName
  insertIgnoreRow rows
    { fileName := fileName, normalizedName := normalized, topicName := topicName,
      duration := duration, sizeMB := sizeMB, width := width, height := height,
      mimeType := mimeType }

/-- Embedding of `deleteVideosFromTopic` (storage.ts lines 244-259):
deletes every row whose normalized name is in the list and whose topic is
the given one or the wildcard; an empty name list deletes nothing. -/
def deleteVideosFromTopic (rows : List VideoRow) (normalizedNames : List Str)
    (topicName : Str) : List VideoRow :=
  if normalizedNames.isEmpty then rows
  else rows.filter (fun r =>
    !(normalizedNames.contains r.normalizedName &&
      (r.topicName == topicName || r.topicName == strL "*")))

/-- Length of the matching prefix of two strings (storage.ts lines
277-286). -/
def prefixMatchLen : Str → Str → Nat
  | c1 :: t1, c2 :: t2 => if c1 = c2 then prefixMatchLen t1 t2 + 1 else 0
  | _, _ => 0

/-- Jaccard similarity of the character sets (storage.ts lines 290-295). -/
def jaccardChars (s1 s2 : Str) : ℚ :=
  let set1 := s1.dedup
  let set2 := s2.dedup
  let inter := set1.filter (fun c => set2.contains c)
  let union := (set1 ++ set2).dedup
  (inter.length : ℚ) / (union.length : ℚ)

/-- Embedding of `calculateSimilarity` (storage.ts lines 261-299).  The
JavaScript float literals 0.7, 0.85 are modelled as the exact rationals
7/10 and 17/20; length ratios of the short names involved never fall in
the sub-ulp gap between the float and the rational. -/
def calculateSimilarity (str1 str2 : Str) : ℚ :=
  if str1 = str2 then 1
  else
    let longer := if str1.length > str2.length then str1 else str2
    let shorter := if str1.length > str2.length then str2 else str1
    let lengthRatio : ℚ := (shorter.length : ℚ) / (longer.length : ℚ)
    if lengthRatio < 7/10 then 0
    else if hasSubstr longer shorter then (shorter.length : ℚ) / (longer.length : ℚ)
    else
      let prefixScore : ℚ := (prefixMatchLen str1 str2 : ℚ) / ((max str1.length str2.length : Nat) : ℚ)
      let characterOverlap := jaccardChars str1 str2
      prefixScore * (7/10) + characterOverlap * (3/10)

/-- The duplicate-detection policy flags (types/config.ts
`duplicateDetection`). -/
structure DupOptions where
  checkDuration : Bool := false
  durationToleranceSeconds : Option ℚ := none
  checkFileSize : Bool := false
  fileSizeTolerancePercent : Option ℚ := none
  checkResolution : Bool := false
  resolutionTolerancePercent : Option ℚ := none
  checkMimeType : Bool := false
  normalizeFilenames : Option Bool := none
deriving DecidableEq

/-- Access `options?.checkDuration` on a possibly absent options object. -/
def optCheckDuration (o : Option DupOptions) : Bool :=
  match o with | some d => d.checkDuration | none => false

/-- Access `options?.checkFileSize`. -/
def optCheckFileSize (o : Option DupOptions) : Bool :=
  match o with | some d => d.checkFileSize | none => false

/-- Access `options?.checkResolution`. -/
def optCheckResolution (o : Option DupOptions) : Bool :=
  match o with | some d => d.checkResolution | none => false

/-- Access `options?.checkMimeType`. -/
def optCheckMimeType (o : Option DupOptions) : Bool :=
  match o with | some d => d.checkMimeType | none => false

/-- JavaScript `x || d` for an optional numeric tolerance: absent and 0
fall back to the default. -/
def tolOr (x : Option ℚ) (dflt : ℚ) : ℚ :=
  match x with
  | some v => if v = 0 then dflt else v
  | none => dflt

/-- The `durationTolerance` of storage.ts line 320 (`|| 30`). -/
def optDurTol (o : Option DupOptions) : ℚ :=
  tolOr (match o with | some d => d.durationToleranceSeconds | none => none) 30

/-- The `sizeTolerance` of storage.ts line 321 (`|| 5`). -/
def optSizeTol (o : Option DupOptions) : ℚ :=
  tolOr (match o with | some d => d.fileSizeTolerancePercent | none => none) 5

/-- The `resolutionTolerance` of storage.ts line 322 (`|| 10`). -/
def optResTol (o : Option DupOptions) : ℚ :=
  tolOr (match o with | some d => d.resolutionTolerancePercent | none => none) 10

/-- Both optional numbers present and truthy. -/
def bothQ (a b : Option ℚ) : Option (ℚ × ℚ) :=
  match a, b with
  | some x, some y => if x ≠ 0 ∧ y ≠ 0 then some (x, y) else none
  | _, _ => none

/-- Absolute-difference tolerance test (duration check). -/
def withinAbs (a b tol : ℚ) : Bool :=
  decide (|a - b| ≤ tol)

/-- Percentage-difference tolerance test, `|a-b| / max(a,b) * 100 ≤ tol`
(size and resolution checks). -/
def pctDiffLe (a b tol : ℚ) : Bool :=
  decide (|a - b| / max a b * 100 ≤ tol)

/-- No advanced check enabled (storage.ts line 333). -/
def noChecksEnabled (o : Option DupOptions) : Bool :=
  !optCheckDuration o && !optCheckFileSize o && !optCheckResolution o && !optCheckMimeType o

/-- Duration component of the exact-name acceptance (storage.ts lines
354-363): with the check enabled, both sides must carry a truthy duration
and differ by at most the tolerance, otherwise the row fails. -/
def durCheckPass (o : Option DupOptions) (duration : Option ℚ) (row : VideoRow) : Bool :=
  if optCheckDuration o then
    match bothQ duration row.duration with
    | some p => withinAbs p.1 p.2 (optDurTol o)
    | none => false
  else true

/-- Size component of the exact-name acceptance (storage.ts lines
365-375). -/
def sizeCheckPass (o : Option DupOptions) (sizeMB : Option ℚ) (row : VideoRow) : Bool :=
  if optCheckFileSize o then
    match bothQ sizeMB row.sizeMB with
    | some p => pctDiffLe p.1 p.2 (optSizeTol o)
    | none => false
  else true

/-- Resolution component of the exact-name acceptance (storage.ts lines
377-389), comparing total pixel counts. -/
def resCheckPass (o : Option DupOptions) (width height : Option Nat) (row : VideoRow) : Bool :=
  if optCheckResolution o then
    match width, height, row.width, row.height with
    | some w, some h, some rw, some rh =>
      if w ≠ 0 ∧ h ≠ 0 ∧ rw ≠ 0 ∧ rh ≠ 0 then
        pctDiffLe ((w : ℚ) * (h : ℚ)) ((rw : ℚ) * (rh : ℚ)) (optResTol o)
      else false
    | _, _, _, _ => false
  else true

/-- MIME component of the exact-name acceptance (storage.ts lines
391-399), case-insensitive equality. -/
def mimeCheckPass (o : Option DupOptions) (mimeType : Option Str) (row : VideoRow) : Bool :=
  if optCheckMimeType o then
    match mimeType, row.mimeType with
    | some m, some rm =>
      if !m.isEmpty && !rm.isEmpty then lowerStr m == lowerStr rm else false
    | _, _ => false
  else true

/-- Acceptance of one exact-name row (storage.ts lines 331-415): with no
advanced checks any exact-name match is a duplicate; otherwise all enabled
checks must pass. -/
def exactRowAccept (o : Option DupOptions) (duration sizeMB : Option ℚ)
    (width height : Option Nat) (mimeType : Option Str) (row : VideoRow) : Bool :=
  if noChecksEnabled o then true
  else
    durCheckPass o duration row && sizeCheckPass o sizeMB row &&
    resCheckPass o width height row && mimeCheckPass o mimeType row

/-- Acceptance of one near-name row (storage.ts lines 433-465): each
enabled check rejects only when both sides carry truthy data and the
difference exceeds the tolerance; missing data does not reject here. -/
def nearRowAccept (o : Option DupOptions) (duration sizeMB : Option ℚ)
    (width height : Option Nat) (mimeType : Option Str) (cand : VideoRow) : Bool :=
  let durOK :=
    match optCheckDuration o, bothQ duration cand.duration with
    | true, some p => withinAbs p.1 p.2 (optDurTol o)
    | _, _ => true
  let sizeOK :=
    match optCheckFileSize o, bothQ sizeMB cand.sizeMB with
    | true, some p => pctDiffLe p.1 p.2 (optSizeTol o)
    | _, _ => true
  let resOK :=
    match optCheckResolution o, width, height, cand.width, cand.height with
    | true, some w, some h, some rw, some rh =>
      if w ≠ 0 ∧ h ≠ 0 ∧ rw ≠ 0 ∧ rh ≠ 0 then
        pctDiffLe ((w : ℚ) * (h : ℚ)) ((rw : ℚ) * (rh : ℚ)) (optResTol o)
      else true
    | _, _, _, _, _ => true
  let mimeOK :=
    match optCheckMimeType o, mimeType, cand.mimeType with
    | true, some m, some rm =>
      if !m.isEmpty && !rm.isEmpty then lowerStr m == lowerStr rm else true
    | _, _, _ => true
  durOK && sizeOK && resOK && mimeOK

/-- Acceptance of one metadata-fallback row (storage.ts lines 489-538):
each enabled check must see truthy data on both sides and pass; an enabled
check with missing data rejects the row. -/
def fallbackRowAccept (o : Option DupOptions) (duration sizeMB : Option ℚ)
    (width height : Option Nat) (mimeType : Option Str) (cand : VideoRow) : Bool :=
  let durOK :=
    if optCheckDuration o then
      match bothQ duration cand.duration with
      | some p => withinAbs p.1 p.2 (optDurTol o)
      | none => false
    else true
  let sizeOK :=
    if optCheckFileSize o then
      match bothQ sizeMB cand.sizeMB with
      | some p => pctDiffLe p.1 p.2 (optSizeTol o)
      | none => false
    else true
  let resOK :=
    if optCheckResolution o then
      match width, height, cand.width, cand.height with
      | some w, some h, some rw, some rh =>
        if w ≠ 0 ∧ h ≠ 0 ∧ rw ≠ 0 ∧ rh ≠ 0 then
          pctDiffLe ((w : ℚ) * (h : ℚ)) ((rw : ℚ) * (rh : ℚ)) (optResTol o)
        else false
      | _, _, _, _ => false
    else true
  let mimeOK :=
    if optCheckMimeType o then
      match mimeType, cand.mimeType with
      | some m, some rm =>
        if !m.isEmpty && !rm.isEmpty then lowerStr m == lowerStr rm else false
      | _, _ => false
    else true
  durOK && sizeOK && resOK && mimeOK

/-- The guard of the near-name and fallback scans (storage.ts line 419):
at least one enabled check whose candidate-side data is truthy. -/
def nearGuard (o : Option DupOptions) (duration sizeMB : Option ℚ)
    (width height : Option Nat) (mimeType : Option Str) : Bool :=
  (optCheckDuration o && truthyQ duration) ||
  (optCheckFileSize o && truthyQ sizeMB) ||
  (optCheckResolution o && truthyNat width && truthyNat height) ||
  (optCheckMimeType o && truthyStr mimeType)

/-- Row visibility for a topic query: the topic itself or the legacy
wildcard `*`. -/
def rowInTopic (topicName : Str) (r : VideoRow) : Bool :=
  r.topicName == topicName || r.topicName == strL "*"

/-- Embedding of `findAllSimilarVideosInTopic` (storage.ts lines 301-556):
exact-name pass, then (under the guard) the near-name pass over every row
of the topic with the 0.85 similarity threshold, then, only when nothing
was found, the metadata-only fallback.  Scans run in row (insertion)
order; the near-name pass skips rows already in the result list.  The
TypeScript signature also takes a `fileName` argument that the body never
reads; it is omitted here. -/
def findAllSimilarVideosInTopic (rows : List VideoRow)
    (normalizedName topicName : Str) (duration sizeMB : Option ℚ)
    (o : Option DupOptions) (width height : Option Nat)
    (mimeType : Option Str) : List VideoRow :=
  let exactMatches := rows.filter (fun r => r.normalizedName == normalizedName && rowInTopic topicName r)
  let results1 := exactMatches.filter (exactRowAccept o duration sizeMB width height mimeType)
  if nearGuard o duration sizeMB width height mimeType then
    let allInTopic := rows.filter (rowInTopic topicName)
    let results2 := allInTopic.foldl (fun acc cand =>
      if acc.any (fun r => r.fileName == cand.fileName && r.normalizedName == cand.normalizedName) then acc
      else if calculateSimilarity normalizedName cand.normalizedName ≥ 17/20 then
        if nearRowAccept o duration sizeMB width height mimeType cand then acc ++ [cand] else acc
      else acc) results1
    if results2.isEmpty then
      allInTopic.foldl (fun acc cand =>
        if fallbackRowAccept o duration sizeMB width height mimeType cand then acc ++ [cand]
        else acc) results2
    else results2
  else results1

/-- Embedding of `findSimilarVideoInTopic` (storage.ts lines 558-579): the
first row of the full scan, if any. -/
def findSimilarVideoInTopic (rows : List VideoRow)
    (normalizedName topicName : Str) (duration sizeMB : Option ℚ)
    (o : Option DupOptions) (width height : Option Nat)
    (mimeType : Option Str) : Option VideoRow :=
  (findAllSimilarVideosInTopic rows normalizedName topicName duration sizeMB o width height mimeType).head?

/-! ## Video processor (src/src/services/video-processor.ts)

The scanner is embedded as a deterministic interpreter over an abstract
RPC environment.  RPCs are modelled as always succeeding with the results
the environment prescribes (the rate-limit retry wrappers around them are
analysed separately through `handleRateLimit`); the boolean outcome of
each `onForward` callback also comes from the environment.  Every store
write and every outgoing forward/delete RPC is recorded, in program order,
in an event trace. -/

/-- Observable actions of one scanner run, in chronological order. -/
inductive Event
  | putMsg (key : Str)
  | putVideo (normalizedName topicName : Str)
  | delVideos (normalizedNames : List Str) (topicName : Str)
  | deleteMessagesRpc (channel : Int) (ids : List Nat)
  | forwardRpc (normalizedName topicName : Str) (messageId targetTopicId : Nat)
deriving DecidableEq

/-- Association-list lookup with a default, the model of indexing a plain
JavaScript object or of an environment response. -/
def lookupD [BEq α] (l : List (α × β)) (k : α) (d : β) : β :=
  match l.find? (fun p => p.1 == k) with
  | some p => p.2
  | none => d

/-- Association-list lookup returning an option. -/
def lookupOpt [BEq α] (l : List (α × β)) (k : α) : Option β :=
  (l.find? (fun p => p.1 == k)).map (·.2)

/-- Set a key in an association list, keeping the original position of an
existing key (JavaScript `Map.set` / object property write). -/
def setAssoc [BEq α] (l : List (α × β)) (k : α) (v : β) : List (α × β) :=
  if l.any (fun p => p.1 == k) then l.map (fun p => if p.1 == k then (k, v) else p)
  else l ++ [(k, v)]

/-- The abstract RPC surface of one run. -/
structure ScanEnv where
  history : List (Nat × List VideoMessage) := []
  replies : List ((Int × Nat × Nat) × List VideoMessage) := []
  forwardOk : List ((Nat × Nat) × Bool) := []
deriving DecidableEq

/-- The subset of `SortingConfig` (types/config.ts) the scanner reads. -/
structure SortingConfig where
  minVideoDurationInSeconds : ℚ := 0
  maxVideoDurationInSeconds : Option ℚ := none
  minFileSizeMB : Option ℚ := none
  maxFileSizeMB : Option ℚ := none
  maxForwards : Nat := 0
  dryRun : Bool := false
  duplicateDetection : Option DupOptions := none
deriving DecidableEq

/-- The in-memory candidate metadata (video-processor.ts lines 12-20). -/
structure VideoMetadata where
  fileName : Str
  normalizedName : Str
  duration : Option ℚ := none
  sizeMB : ℚ := 0
  width : Option Nat := none
  height : Option Nat := none
  mimeType : Option Str := none
deriving DecidableEq

/-- Mutable context of one `processSource` call: both store tables, the
topic message cache, the per-topic forward statistics, the counters and
the event trace. -/
structure ScanState where
  msgRows : List Str := []
  videoRows : List VideoRow := []
  topicCache : List ((Int × Nat) × List (Nat × VideoMessage)) := []
  forwardStats : List (Str × Nat) := []
  trace : List Event := []
  processed : Nat := 0
  forwarded : Nat := 0
deriving DecidableEq

/-- Decimal digits of a natural number (model of template-string
interpolation of a number); the fuel only drives structural recursion. -/
def natDigitsAux : Nat → Nat → List Char → List Char
  | 0, _, acc => acc
  | fuel + 1, n, acc =>
    if n = 0 then acc
    else natDigitsAux fuel (n / 10) (Char.ofNat (48 + n % 10) :: acc)

/-- Decimal rendering of a natural number. -/
def natToStr (n : Nat) : Str :=
  if n = 0 then ['0'] else natDigitsAux n n []

/-- Decimal rendering of an integer. -/
def intToStr (i : Int) : Str :=
  if i < 0 then '-' :: natToStr i.natAbs else natToStr i.natAbs

/-- The processed-message key, the template string
`(dollar){sourceId}_(dollar){message.id}` of video-processor.ts line 314. -/
def msgKey (sourceId : Int) (messageId : Nat) : Str :=
  intToStr sourceId ++ '_' :: natToStr messageId

/-- Embedding of `hasProcessedMessage` (storage.ts lines 212-214). -/
def stHasProcessedMessage (st : ScanState) (key : Str) : Bool :=
  st.msgRows.contains key

/-- Embedding of `saveProcessedMessage` (storage.ts lines 208-210,
`INSERT OR IGNORE` on the primary key); records the write attempt. -/
def stSaveProcessedMessage (st : ScanState) (key : Str) : ScanState :=
  { st with
    msgRows := if st.msgRows.contains key then st.msgRows else st.msgRows ++ [key],
    trace := st.trace ++ [Event.putMsg key] }

/-- State-level wrapper of `saveProcessedVideoName`; the event always
records the insert attempt with the key actually used (after the
JavaScript default for an empty normalized name). -/
def stSaveVideo (st : ScanState) (fileName topicName : Str)
    (duration sizeMB : Option ℚ) (normalizedName : Option Str)
    (width height : Option Nat) (mimeType : Option Str) : ScanState :=
  let normalized :=
    match normalizedName with
    | some n => if n.isEmpty then lowerStr fileName else n
    | none => lowerStr fileName
  { st with
    videoRows := saveProcessedVideoName st.videoRows fileName topicName duration sizeMB
        normalizedName width height mimeType,
    trace := st.trace ++ [Event.putVideo normalized topicName] }

/-- State-level wrapper of `deleteVideosFromTopic`; returns the number of
deleted rows (`result.changes`). -/
def stDeleteVideosFromTopic (st : ScanState) (normalizedNames : List Str)
    (topicName : Str) : ScanState × Nat :=
  let newRows := deleteVideosFromTopic st.videoRows normalizedNames topicName
  ({ st with videoRows := newRows,
             trace := st.trace ++ [Event.delVideos normalizedNames topicName] },
   st.videoRows.length - newRows.length)

/-- JavaScript `x || undefined` on an optional number (`videoMeta.duration
|| undefined`, video-processor.ts line 51): 0 becomes undefined. -/
def qTruthyOpt (x : Option ℚ) : Option ℚ :=
  match x with
  | some v => if v = 0 then none else some v
  | none => none

/-- Insertion-ordered map write (`messageMap.set(msg.id, msg)`). -/
def mapSet (m : List (Nat × VideoMessage)) (k : Nat) (v : VideoMessage) :
    List (Nat × VideoMessage) :=
  setAssoc m k v

/-- Embedding of the pagination loop of `fetchTopicMessages`
(video-processor.ts lines 182-256): up to 50 GetReplies pages of the
environment, each keyed by the current offset; RPC errors do not occur in
the modelled environment. -/
def fetchTopicMessagesAux (env : ScanEnv) (forumGroupId : Int) (topicId : Nat) :
    Nat → Nat → List (Nat × VideoMessage) → List (Nat × VideoMessage)
  | 0, _, acc => acc
  | fuel + 1, offsetId, acc =>
    let messages := lookupD env.replies (forumGroupId, topicId, offsetId) []
    if messages.isEmpty then acc
    else
      let acc2 := messages.foldl (fun a msg => mapSet a msg.id msg) acc
      match messages.getLast? with
      | some last => fetchTopicMessagesAux env forumGroupId topicId fuel last.id acc2
      | none => acc2

/-- Embedding of `fetchTopicMessages` (maxBatches = 50, starting offset 0). -/
def fetchTopicMessages (env : ScanEnv) (forumGroupId : Int) (topicId : Nat) :
    List (Nat × VideoMessage) :=
  fetchTopicMessagesAux env forumGroupId topicId 50 0 []

/-- The per-cached-message duplicate test of `findAndDeleteDuplicatesInTopic`
(video-processor.ts lines 84-135): the message must carry a document whose
file name normalizes (always through `normalizeFileName`, line 91) to the
duplicate row's name, and each enabled metadata check rejects only when
both sides carry truthy data out of tolerance. -/
def msgMatchesDuplicate (dd : Option DupOptions) (durTol sizeTol resTol : ℚ)
    (dups : List VideoRow) (message : VideoMessage) : Bool :=
  match message.media with
  | none => false
  | some media =>
    match media.document with
    | none => false
    | some document =>
      let fileName := getFileName (some document)
      let normalizedName := normalizeFileName fileName
      let msgDuration := getVideoDuration (some document)
      let msgSizeMB := getFileSizeMB (some document)
      let msgResolution := getVideoResolution (some document)
      let msgMimeType := getMimeType (some document)
      dups.any (fun d =>
        if !(d.normalizedName == normalizedName) then false
        else
          let durOK :=
            match optCheckDuration dd, bothQ msgDuration d.duration with
            | true, some p => withinAbs p.1 p.2 durTol
            | _, _ => true
          let sizeOK :=
            match optCheckFileSize dd, bothQ (some msgSizeMB) d.sizeMB with
            | true, some p => pctDiffLe p.1 p.2 sizeTol
            | _, _ => true
          let resOK :=
            match optCheckResolution dd, msgResolution, d.width, d.height with
            | true, some wh, some rw, some rh =>
              if rw ≠ 0 ∧ rh ≠ 0 then
                pctDiffLe ((wh.1 : ℚ) * (wh.2 : ℚ)) ((rw : ℚ) * (rh : ℚ)) resTol
              else true
            | _, _, _, _ => true
          let mimeOK :=
            match optCheckMimeType dd, msgMimeType, d.mimeType with
            | true, some m, some rm =>
              if !m.isEmpty && !rm.isEmpty then lowerStr m == lowerStr rm else true
            | _, _, _ => true
          durOK && sizeOK && resOK && mimeOK)

/-- Embedding of `findAndDeleteDuplicatesInTopic` (video-processor.ts
lines 40-177): query the store for all similar rows, load (or reuse) the
cached topic messages, select the cached messages matching a duplicate,
then either clean up only the store rows (no matching message), or issue
the batched delete RPC, purge the cache and delete the store rows.  In
dry-run mode nothing is deleted but the count is still returned. -/
def findAndDeleteDuplicatesInTopic (cfg : SortingConfig) (env : ScanEnv)
    (st : ScanState) (forumGroupId : Int) (topicId : Nat) (topicName : Str)
    (videoMeta : VideoMetadata) : ScanState × Nat :=
  let duplicates := findAllSimilarVideosInTopic st.videoRows
      videoMeta.normalizedName topicName (qTruthyOpt videoMeta.duration)
      (some videoMeta.sizeMB) cfg.duplicateDetection
      videoMeta.width videoMeta.height videoMeta.mimeType
  if duplicates.isEmpty then (st, 0)
  else
    let cacheKey := (forumGroupId, topicId)
    let cached := lookupOpt st.topicCache cacheKey
    let messageMap :=
      match cached with
      | some m => m
      | none => fetchTopicMessages env forumGroupId topicId
    let st1 :=
      match cached with
      | some _ => st
      | none => { st with topicCache := setAssoc st.topicCache cacheKey messageMap }
    let durTol := optDurTol cfg.duplicateDetection
    let sizeTol := optSizeTol cfg.duplicateDetection
    let resTol := optResTol cfg.duplicateDetection
    let messageIdsToDelete :=
      ((messageMap.map (·.2)).filter
        (msgMatchesDuplicate cfg.duplicateDetection durTol sizeTol resTol duplicates)).map (·.id)
    if messageIdsToDelete.isEmpty then
      let st2 := (stDeleteVideosFromTopic st1 (duplicates.map (·.normalizedName)) topicName).1
      (st2, 0)
    else if !cfg.dryRun then
      let st2 := { st1 with trace := st1.trace ++ [Event.deleteMessagesRpc forumGroupId messageIdsToDelete] }
      let purged := messageMap.filter (fun p => !messageIdsToDelete.contains p.1)
      let st3 := { st2 with topicCache := setAssoc st2.topicCache cacheKey purged }
      let st4 := (stDeleteVideosFromTopic st3 (duplicates.map (·.normalizedName)) topicName).1
      (st4, messageIdsToDelete.length)
    else
      (st1, messageIdsToDelete.length)

/-- Embedding of `getTopicsToForwardWithDuplicateHandling`
(video-processor.ts lines 492-546): every matched topic is forwarded to;
where a similar video is found its duplicates are first deleted. -/
def getTopicsToForwardDup (cfg : SortingConfig) (env : ScanEnv) (st : ScanState)
    (forumGroupId : Int) (topicIds : List (Str × Nat)) (videoMeta : VideoMetadata)
    (matchedStrings : List Str) : ScanState × List Str × Nat :=
  matchedStrings.foldl (fun acc matchedString =>
    let st0 := acc.1
    let similarVideo := findSimilarVideoInTopic st0.videoRows
        videoMeta.normalizedName matchedString (qTruthyOpt videoMeta.duration)
        (some videoMeta.sizeMB) cfg.duplicateDetection
        videoMeta.width videoMeta.height videoMeta.mimeType
    match similarVideo with
    | some _ =>
      let topicId := lookupD topicIds matchedString 0
      let r := findAndDeleteDuplicatesInTopic cfg env st0 forumGroupId topicId matchedString videoMeta
      (r.1, acc.2.1 ++ [matchedString], acc.2.2 + r.2)
    | none => (st0, acc.2.1 ++ [matchedString], acc.2.2))
    (st, ([], 0))

/-- Increment one per-topic forward counter
(`forwardStats[k] = (forwardStats[k] ?? 0) + 1`). -/
def bumpStat (stats : List (Str × Nat)) (t : Str) : List (Str × Nat) :=
  setAssoc stats t (lookupD stats t 0 + 1)

/-- Embedding of `forwardToTopics` (video-processor.ts lines 600-663).
Outside dry-run (and with a truthy forum group id) one forward RPC is
issued per topic, in order; the per-topic outcomes come from the
environment; per-topic statistics count the successes; the returned
boolean is `results.every(r => r.success)`.  In dry-run no RPC is issued,
every target topic's statistic is incremented, and the result is true. -/
def forwardToTopics (cfg : SortingConfig) (env : ScanEnv) (st : ScanState)
    (messageId : Nat) (forumGroupId : Int) (topicIds : List (Str × Nat))
    (topicsToForward : List Str) (videoMeta : VideoMetadata) : ScanState × Bool :=
  if !cfg.dryRun && forumGroupId != 0 then
    let results := topicsToForward.map (fun matchedString =>
      let targetTopicId := lookupD topicIds matchedString 0
      (lookupD env.forwardOk (messageId, targetTopicId) false, matchedString, targetTopicId))
    let evs := results.map (fun r =>
      Event.forwardRpc videoMeta.normalizedName r.2.1 messageId r.2.2)
    let st1 := { st with trace := st.trace ++ evs }
    let allSucceeded := results.all (·.1)
    let st2 := results.foldl (fun s r =>
      if r.1 then { s with forwardStats := bumpStat s.forwardStats r.2.1 } else s) st1
    (st2, allSucceeded)
  else if cfg.dryRun then
    (topicsToForward.foldl (fun s matchedString =>
      { s with forwardStats := bumpStat s.forwardStats matchedString }) st, true)
  else
    (st, false)

/-- Embedding of `extractVideoMetadata` (video-processor.ts lines 448-468);
the normalized name honours `duplicateDetection?.normalizeFilenames !==
false`, and an empty mime string becomes absent (`mimeType || undefined`). -/
def extractVideoMetadata (dd : Option DupOptions) (message : VideoMessage) :
    VideoMetadata :=
  let document := message.media.bind (·.document)
  let resolution := getVideoResolution document
  let fileName := getFileName document
  let normalizedName :=
    if (match dd with
        | some o => !(o.normalizeFilenames == some false)
        | none => true) then normalizeFileName fileName
    else lowerStr fileName
  { fileName := fileName,
    normalizedName := normalizedName,
    duration := getVideoDuration document,
    sizeMB := getFileSizeMB document,
    width := resolution.map (·.1),
    height := resolution.map (·.2),
    mimeType :=
      match getMimeType document with
      | some m => if m.isEmpty then none else some m
      | none => none }

/-- Embedding of `validateVideoConstraints` (video-processor.ts lines
470-490); each bound only applies when configured truthy, and the
max-duration bound only when the duration itself is truthy. -/
def validateVideoConstraints (cfg : SortingConfig) (meta : VideoMetadata) : Bool :=
  if truthyQ cfg.minFileSizeMB && decide (meta.sizeMB < cfg.minFileSizeMB.getD 0) then false
  else if truthyQ cfg.maxFileSizeMB && decide (meta.sizeMB > cfg.maxFileSizeMB.getD 0) then false
  else if truthyQ cfg.maxVideoDurationInSeconds && truthyQ meta.duration &&
          decide (meta.duration.getD 0 > cfg.maxVideoDurationInSeconds.getD 0) then false
  else true

/-- One iteration of the message loop of `processSource`
(video-processor.ts lines 313-432).  The boolean is true when the
max-forwards cap fired (`hasMore = false; break`). -/
def processMessage (cfg : SortingConfig) (env : ScanEnv) (sourceId : Int)
    (forumGroupId : Int) (topicIds : List (Str × Nat))
    (matchList exclusions : List Str) (st : ScanState)
    (message : VideoMessage) : ScanState × Bool :=
  let messageId := msgKey sourceId message.id
  if stHasProcessedMessage st messageId then (st, false)
  else
    let st := stSaveProcessedMessage st messageId
    let matchedStrings := matchesVideo message matchList exclusions cfg.minVideoDurationInSeconds
    let st := { st with processed := st.processed + 1 }
    if matchedStrings.isEmpty then (st, false)
    else if st.forwarded ≥ cfg.maxForwards then (st, true)
    else
      let videoMeta := extractVideoMetadata cfg.duplicateDetection message
      if !validateVideoConstraints cfg videoMeta then (st, false)
      else
        let part := matchedStrings.foldl (fun (p : List Str × List Str) topic =>
          match findSimilarVideoInTopic st.videoRows videoMeta.normalizedName topic
              (qTruthyOpt videoMeta.duration) (some videoMeta.sizeMB)
              cfg.duplicateDetection videoMeta.width videoMeta.height videoMeta.mimeType with
          | some _ => (p.1 ++ [topic], p.2)
          | none => (p.1, p.2 ++ [topic])) ([], [])
        let existingTopics := part.1
        let newTopics := part.2
        if !existingTopics.isEmpty && newTopics.isEmpty then (st, false)
        else
          let st :=
            if !cfg.dryRun then
              newTopics.foldl (fun s topic =>
                stSaveVideo s videoMeta.fileName topic videoMeta.duration
                  (some videoMeta.sizeMB) (some videoMeta.normalizedName)
                  videoMeta.width videoMeta.height videoMeta.mimeType) st
            else st
          let r := getTopicsToForwardDup cfg env st forumGroupId topicIds videoMeta matchedStrings
          let st := r.1
          let topicsToForward := r.2.1
          if topicsToForward.isEmpty then (st, false)
          else
            let fr := forwardToTopics cfg env st message.id forumGroupId topicIds
                topicsToForward videoMeta
            if fr.2 then ({ fr.1 with forwarded := fr.1.forwarded + 1 }, false)
            else (fr.1, false)

/-- Run the message loop over one batch, stopping at the cap. -/
def runMessages (cfg : SortingConfig) (env : ScanEnv) (sourceId forumGroupId : Int)
    (topicIds : List (Str × Nat)) (matchList exclusions : List Str) :
    ScanState → List VideoMessage → ScanState × Bool
  | st, [] => (st, false)
  | st, m :: rest =>
    let r := processMessage cfg env sourceId forumGroupId topicIds matchList exclusions st m
    if r.2 then (r.1, true)
    else runMessages cfg env sourceId forumGroupId topicIds matchList exclusions r.1 rest

/-- The `while (hasMore)` history walk of `processSource` (lines 284-442):
fetch the page at the current offset, filter to messages with media,
process them, advance the offset to the last message of the page.  The
fuel bounds the number of pages considered. -/
def scanLoop (cfg : SortingConfig) (env : ScanEnv) (sourceId forumGroupId : Int)
    (topicIds : List (Str × Nat)) (matchList exclusions : List Str) :
    Nat → Nat → ScanState → ScanState
  | 0, _, st => st
  | fuel + 1, offsetId, st =>
    let messages := lookupD env.history offsetId []
    if messages.isEmpty then st
    else
      let mediaMessages := messages.filter (fun m => m.media.isSome)
      let r := runMessages cfg env sourceId forumGroupId topicIds matchList exclusions st mediaMessages
      let offsetId2 :=
        match messages.getLast? with
        | some last => last.id
        | none => offsetId
      if r.2 then r.1
      else scanLoop cfg env sourceId forumGroupId topicIds matchList exclusions fuel offsetId2 r.1

/-- Embedding of `processSource` (video-processor.ts lines 258-446): the
counters start at 0 processed and `totalForwarded` forwarded; the walk
starts at offset 0.  The fuel bounds the history pagination. -/
def processSource (cfg : SortingConfig) (env : ScanEnv) (sourceId forumGroupId : Int)
    (topicIds : List (Str × Nat)) (matchList exclusions : List Str)
    (totalForwarded : Nat) (fuel : Nat) (st0 : ScanState) : ScanState :=
  scanLoop cfg env sourceId forumGroupId topicIds matchList exclusions fuel 0
    { st0 with processed := 0, forwarded := totalForwarded }

/-! ## Trace predicates and concrete scenarios -/

/-- True when every forward RPC of the trace is preceded by a putVideo
write of the same `(normalizedName, topicName)` pair. -/
def putPrecedesAux : List (Str × Str) → List Event → Bool
  | _, [] => true
  | seen, Event.putVideo n t :: rest => putPrecedesAux ((n, t) :: seen) rest
  | seen, Event.forwardRpc n t _ _ :: rest => seen.contains (n, t) && putPrecedesAux seen rest
  | seen, _ :: rest => putPrecedesAux seen rest

/-- Every forward RPC in the trace is preceded by a putVideo for its pair. -/
def putPrecedesForwards (tr : List Event) : Bool :=
  putPrecedesAux [] tr

/-- Test for a forward RPC event of a given pair. -/
def isForwardFor (n t : Str) : Event → Bool
  | Event.forwardRpc n2 t2 _ _ => n2 == n && t2 == t
  | _ => false

/-- Test for a putVideo event of a given pair. -/
def isPutVideoFor (n t : Str) : Event → Bool
  | Event.putVideo n2 t2 => n2 == n && t2 == t
  | _ => false

/-- Count of forward RPC events in a trace. -/
def countForwards (tr : List Event) : Nat :=
  tr.countP (fun e => match e with | Event.forwardRpc _ _ _ _ => true | _ => false)

/-- A document carrying a video attribute with the given duration and a
filename attribute. -/
def mkDoc (name : String) (dur : ℚ) : VideoDocument :=
  { attributes := some
      [ { className := strL "DocumentAttributeVideo", duration := some dur },
        { className := strL "DocumentAttributeFilename", fileName := some (strL name) } ],
    size := some 104857600,
    mimeType := none }

/-- A message carrying the document, flagged as video by the protocol. -/
def mkVideoMsg (i : Nat) (name : String) (dur : ℚ) : VideoMessage :=
  { media := some { document := some (mkDoc name dur), video := true },
    message := none, id := i }

/-- Scenario S7 of the spec: four candidates matching `keyword`, cap 2. -/
def s7Cfg : SortingConfig :=
  { minVideoDurationInSeconds := 300, maxForwards := 2, dryRun := false,
    duplicateDetection := none }

/-- The four S7 candidate messages, newest first. -/
def s7Page : List VideoMessage :=
  [ mkVideoMsg 104 "Alpha.Keyword.mp4" 600, mkVideoMsg 103 "Beta.Keyword.mp4" 600,
    mkVideoMsg 102 "Gamma.Keyword.mp4" 600, mkVideoMsg 101 "Delta.Keyword.mp4" 600 ]

/-- S7 environment: one history page, an empty destination topic, forwards
succeed. -/
def s7Env : ScanEnv :=
  { history := [(0, s7Page)], replies := [],
    forwardOk := [((104, 7), true), ((103, 7), true), ((102, 7), true), ((101, 7), true)] }

/-- The S7 run: source 555, forum group 1, topic `keyword` with id 7. -/
def s7Run : ScanState :=
  processSource s7Cfg s7Env 555 1 [(strL "keyword", 7)] [strL "keyword"] [] 0 5 {}


/-- C1 scenario policy: duration check enabled (default tolerance). -/
def c1Opts : DupOptions := { checkDuration := true }

/-- C1 scenario configuration. -/
def c1Cfg : SortingConfig :=
  { minVideoDurationInSeconds := 300, maxForwards := 10, dryRun := false,
    duplicateDetection := some c1Opts }

/-- A pre-existing store row in topic `foo` whose normalized name
`fookeywordx` is a near-name match (similarity 10/11) of the incoming
candidate's `fookeyword`. -/
def c1Row : VideoRow :=
  { fileName := strL "fookeywordx", normalizedName := strL "fookeywordx",
    topicName := strL "foo", duration := some 600, sizeMB := some 100 }

/-- The C1 candidate message, matching both keywords. -/
def c1Msg : VideoMessage := mkVideoMsg 50 "Foo.Keyword.mp4" 600

/-- C1 environment: one history page with the candidate, empty destination
topics, both forwards succeed. -/
def c1Env : ScanEnv :=
  { history := [(0, [c1Msg])], replies := [],
    forwardOk := [((50, 5), true), ((50, 7), true)] }

/-- The C1 run: topics `foo` (id 5) and `keyword` (id 7); the store starts
with `c1Row`. -/
def c1Run : ScanState :=
  processSource c1Cfg c1Env 555 1 [(strL "foo", 5), (strL "keyword", 7)]
    [strL "foo", strL "keyword"] [] 0 5 { videoRows := [c1Row] }




/-! ## Facts about the normalizer output alphabet -/

/-- An `[a-z0-9]` character differs from any character outside the class. -/
theorem alnum_ne_ch (c d : Char) (h : isLowerAlnum c = true)
    (hd : isLowerAlnum d = false) : c ≠ d := by
  intro he
  subst he
  rw [h] at hd
  cases hd

/-- ASCII lowercase letters and digits are fixed by `jsToLower`. -/
theorem jsToLower_alnum (c : Char) (h : isLowerAlnum c = true) : jsToLower c = c := by
  have hP : ('a' ≤ c ∧ c ≤ 'z') ∨ ('0' ≤ c ∧ c ≤ '9') := by
    simpa [isLowerAlnum, Bool.or_eq_true, Bool.and_eq_true, decide_eq_true_eq] using h
  unfold jsToLower
  split
  · next hcnd =>
    exfalso
    simp only [Bool.and_eq_true, decide_eq_true_eq] at hcnd
    rcases hP with ⟨ha, _⟩ | ⟨_, h9⟩
    · exact absurd (le_trans ha hcnd.2) (by decide)
    · exact absurd (le_trans hcnd.1 h9) (by decide)
  · rfl

/-- An `[a-z0-9]` character is not a separator. -/
theorem isSepChar_alnum (c : Char) (h : isLowerAlnum c = true) : isSepChar c = false := by
  have hne : ∀ d : Char, isLowerAlnum d = false → decide (c = d) = false := fun d hd =>
    decide_eq_false (alnum_ne_ch c d h hd)
  unfold isSepChar isJsWs
  rw [hne ' ' (by decide), hne '\t' (by decide), hne '\n' (by decide),
      hne '\r' (by decide), hne '\x0b' (by decide), hne '\x0c' (by decide),
      hne ' ' (by decide), hne '_' (by decide), hne '-' (by decide),
      hne '.' (by decide)]
  rfl

/-- An `[a-z0-9]` character is not whitespace. -/
theorem isJsWs_alnum (c : Char) (h : isLowerAlnum c = true) : isJsWs c = false := by
  have hs := isSepChar_alnum c h
  unfold isSepChar at hs
  have h1 := (Bool.or_eq_false_iff.mp hs).1
  have h2 := (Bool.or_eq_false_iff.mp h1).1
  exact (Bool.or_eq_false_iff.mp h2).1

/-- Membership through `trimStr`. -/
theorem mem_of_mem_trimStr (c : Char) (l : Str) (hc : c ∈ trimStr l) : c ∈ l := by
  unfold trimStr at hc
  rw [List.mem_reverse] at hc
  have h1 := (List.dropWhile_suffix (l := (l.dropWhile isJsWs).reverse) isJsWs).subset hc
  rw [List.mem_reverse] at h1
  exact (List.dropWhile_suffix isJsWs).subset h1

/-- Every character of a normalized name is in `[a-z0-9]`. -/
theorem mem_normalize_alnum (s : Str) (c : Char)
    (hc : c ∈ normalizeFileName s) : isLowerAlnum c = true := by
  simp only [normalizeFileName] at hc
  have h1 := mem_of_mem_trimStr _ _ hc
  unfold stripAllWs at h1
  have h2 := List.mem_filter.mp h1
  unfold keepLowAlnumWs at h2
  have h3 := List.mem_filter.mp h2.1
  have h4 := h3.2
  simp only [Bool.or_eq_true] at h4
  rcases h4 with hgood | hws
  · exact hgood
  · rw [hws] at h2
    cases h2.2

/-- `dropWhile` is the identity when no character satisfies the test. -/
theorem dropWhile_id_of (p : Char → Bool) (l : Str)
    (h : ∀ c ∈ l, p c = false) : l.dropWhile p = l := by
  cases l with
  | nil => rfl
  | cons a t =>
    rw [List.dropWhile_cons, h a (List.mem_cons_self a t)]
    simp

/-- `trimStr` is the identity on whitespace-free strings. -/
theorem trimStr_id (l : Str) (h : ∀ c ∈ l, isJsWs c = false) : trimStr l = l := by
  unfold trimStr
  rw [dropWhile_id_of _ _ h,
      dropWhile_id_of _ _ (fun c hc => h c (List.mem_reverse.mp hc)),
      List.reverse_reverse]

/-- The special-character filter keeps an all-alphanumeric string. -/
theorem keepLowAlnumWs_id (l : Str) (h : ∀ c ∈ l, isLowerAlnum c = true) :
    keepLowAlnumWs l = l := by
  unfold keepLowAlnumWs
  exact List.filter_eq_self.mpr (fun c hc => by rw [h c hc]; rfl)

/-- The whitespace stripper keeps an all-alphanumeric string. -/
theorem stripAllWs_id (l : Str) (h : ∀ c ∈ l, isLowerAlnum c = true) :
    stripAllWs l = l := by
  unfold stripAllWs
  exact List.filter_eq_self.mpr (fun c hc => by rw [isJsWs_alnum c (h c hc)]; rfl)

/-- `collapseRunsAux` is the identity when no character satisfies the test. -/
theorem collapseRunsAux_id (p : Char → Bool) (fuel : Nat) (s : Str)
    (h : ∀ c ∈ s, p c = false) : collapseRunsAux p fuel s = s := by
  induction fuel generalizing s with
  | zero => cases s <;> rfl
  | succ n ih =>
    cases s with
    | nil => rfl
    | cons a t =>
      simp only [collapseRunsAux]
      rw [h a (List.mem_cons_self a t)]
      simp only [Bool.false_eq_true, if_false]
      exact congrArg (a :: ·) (ih t (fun c hc => h c (List.mem_cons_of_mem a hc)))

/-- `scanReplaceAux` is the identity when the matcher never fires on any
character of the string. -/
theorem scanReplaceAux_id (m : Str → Option Nat) (fuel : Nat) (s : Str)
    (h : ∀ (c : Char) (t : Str), c ∈ s → m (c :: t) = none) :
    scanReplaceAux m fuel s = s := by
  induction fuel generalizing s with
  | zero => cases s <;> rfl
  | succ n ih =>
    cases s with
    | nil => rfl
    | cons a t =>
      simp only [scanReplaceAux]
      rw [h a t (List.mem_cons_self a t)]
      exact congrArg (a :: ·) (ih t (fun c t2 hc => h c t2 (List.mem_cons_of_mem a hc)))

/-- The domain matcher needs a dot at the head. -/
theorem matchDomainAt_none (c : Char) (t : Str) (h : c ≠ '.') :
    matchDomainAt (c :: t) = none := by
  simp only [matchDomainAt]
  rw [if_neg h]

/-- The release-tag matcher needs an opening bracket at the head. -/
theorem matchRelAt_none (c : Char) (t : Str) (h : c ≠ '[') :
    matchRelAt (c :: t) = none := by
  simp only [matchRelAt]
  rw [if_neg h]

/-- `lowerStr` is the identity on all-alphanumeric strings. -/
theorem lowerStr_id (l : Str) (h : ∀ c ∈ l, isLowerAlnum c = true) :
    lowerStr l = l := by
  induction l with
  | nil => rfl
  | cons a t ih =>
    unfold lowerStr
    simp only [List.map_cons]
    rw [jsToLower_alnum a (h a (List.mem_cons_self a t))]
    exact congrArg (a :: ·) (ih (fun c hc => h c (List.mem_cons_of_mem a hc)))

/-- `stripExt` is the identity on dot-free strings. -/
theorem stripExt_id (l : Str) (h : ∀ c ∈ l, isLowerAlnum c = true) :
    stripExt l = l := by
  unfold stripExt
  have hnone : videoExts.find? (fun e => List.isSuffixOf ('.' :: e) l) = none := by
    apply List.find?_eq_none.mpr
    intro e _
    simp only [Bool.not_eq_true]
    rw [Bool.eq_false_iff]
    intro hsuf
    have hsuffix : ('.' :: e) <:+ l := by
      exact List.isSuffixOf_iff_suffix.mp hsuf
    have hdot : '.' ∈ l := hsuffix.subset (List.mem_cons_self '.' e)
    have hfd : isLowerAlnum '.' = false := by decide
    rw [h '.' hdot] at hfd
    cases hfd
  rw [hnone]

/-- On an all-alphanumeric string on which the five token-removal passes
act trivially, the whole normalizer is the identity: every other pass can
only fire on a dot, bracket, separator or uppercase letter, none of which
the string contains. -/
theorem normalizeFileName_id (y : Str) (hy : ∀ c ∈ y, isLowerAlnum c = true)
    (h2 : scanReplace matchResAt y = y) (h3 : scanReplace matchKAt y = y)
    (h4 : scanReplace (matchAltAt qualAlts) y = y)
    (h5 : scanReplace (matchAltAt codecAlts) y = y)
    (h6 : scanReplace (matchAltAt audioAlts) y = y) :
    normalizeFileName y = y := by
  have hlow : lowerStr y = y := lowerStr_id y hy
  have hext : stripExt y = y := stripExt_id y hy
  have hdom : scanReplace matchDomainAt y = y := by
    unfold scanReplace
    exact scanReplaceAux_id _ _ _ (fun c t2 hc =>
      matchDomainAt_none c t2 (alnum_ne_ch c '.' (hy c hc) (by decide)))
  have hrel : scanReplace matchRelAt y = y := by
    unfold scanReplace
    exact scanReplaceAux_id _ _ _ (fun c t2 hc =>
      matchRelAt_none c t2 (alnum_ne_ch c '[' (hy c hc) (by decide)))
  have hsep : collapseSeps y = y := by
    unfold collapseSeps
    exact collapseRunsAux_id _ _ _ (fun c hc => isSepChar_alnum c (hy c hc))
  have hws : collapseWs y = y := by
    unfold collapseWs
    exact collapseRunsAux_id _ _ _ (fun c hc => isJsWs_alnum c (hy c hc))
  have htrim : trimStr y = y := trimStr_id y (fun c hc => isJsWs_alnum c (hy c hc))
  have hkeep : keepLowAlnumWs y = y := keepLowAlnumWs_id y hy
  have hstrip : stripAllWs y = y := stripAllWs_id y hy
  simp only [normalizeFileName]
  rw [hlow, hext, h2, h3, h4, h5, h6, hdom, hrel, hsep, hws, htrim, hkeep, hstrip]
  exact htrim

/-- Claim C6: the normalizer is NOT idempotent.  `"10[hd]80p"` normalizes
to `"1080p"` (the quality pass removes `[hd]`, creating a resolution token
the earlier resolution pass no longer sees), and a second application
erases it. -/
theorem normalizeFileName_not_idempotent :
    normalizeFileName (normalizeFileName (strL "10[hd]80p")) ≠
      normalizeFileName (strL "10[hd]80p") := by decide

/-- Claim C6 (amended): idempotence of the normalizer holds exactly on the
inputs whose normalized form is untouched by the five token-removal passes
(resolution `\d{3,4}p`, `\d k`, quality, codec, audio); all remaining
passes are provably the identity on the `[a-z0-9]`-only output, so a pass
of the whole normalizer over its own output reduces to those five token
passes. -/
theorem normalizeFileName_idempotent_of_token_free (x : Str)
    (h2 : scanReplace matchResAt (normalizeFileName x) = normalizeFileName x)
    (h3 : scanReplace matchKAt (normalizeFileName x) = normalizeFileName x)
    (h4 : scanReplace (matchAltAt qualAlts) (normalizeFileName x) = normalizeFileName x)
    (h5 : scanReplace (matchAltAt codecAlts) (normalizeFileName x) = normalizeFileName x)
    (h6 : scanReplace (matchAltAt audioAlts) (normalizeFileName x) = normalizeFileName x) :
    normalizeFileName (normalizeFileName x) = normalizeFileName x :=
  normalizeFileName_id (normalizeFileName x)
    (fun c hc => mem_normalize_alnum x c hc) h2 h3 h4 h5 h6

/-- Witness for the amended C6 at `"Foo.mp4"` (normalized form `"foo"`). -/
theorem normalizeFileName_idempotent_witness :
    scanReplace matchResAt (normalizeFileName (strL "Foo.mp4")) = normalizeFileName (strL "Foo.mp4") ∧
    scanReplace matchKAt (normalizeFileName (strL "Foo.mp4")) = normalizeFileName (strL "Foo.mp4") ∧
    scanReplace (matchAltAt qualAlts) (normalizeFileName (strL "Foo.mp4")) = normalizeFileName (strL "Foo.mp4") ∧
    scanReplace (matchAltAt codecAlts) (normalizeFileName (strL "Foo.mp4")) = normalizeFileName (strL "Foo.mp4") ∧
    scanReplace (matchAltAt audioAlts) (normalizeFileName (strL "Foo.mp4")) = normalizeFileName (strL "Foo.mp4") ∧
    normalizeFileName (normalizeFileName (strL "Foo.mp4")) = normalizeFileName (strL "Foo.mp4") :=
  ⟨by decide, by decide, by decide, by decide, by decide,
   normalizeFileName_idempotent_of_token_free (strL "Foo.mp4")
     (by decide) (by decide) (by decide) (by decide) (by decide)⟩

/-! ## Claim C2: per-key uniqueness of the processed-videos table -/

/-- The store operations that write the `processed_videos` table:
`saveProcessedVideoName` (storage.ts 216-228), `deleteVideosFromTopic`
(storage.ts 244-259), and the one-shot legacy migration, whose insert
statement is the same `INSERT OR IGNORE` with the topic forced to `"*"`
(storage.ts 154-206). -/
inductive StoreOp
  | put (fileName topicName : Str) (duration sizeMB : Option ℚ)
        (normalizedName : Option Str) (width height : Option Nat) (mimeType : Option Str)
  | del (normalizedNames : List Str) (topicName : Str)
  | migrate (videos : List VideoRow)

/-- Apply one store operation. -/
def applyStoreOp (rows : List VideoRow) : StoreOp → List VideoRow
  | StoreOp.put f t d s nn w h m => saveProcessedVideoName rows f t d s nn w h m
  | StoreOp.del names t => deleteVideosFromTopic rows names t
  | StoreOp.migrate vids =>
    vids.foldl (fun acc v => insertIgnoreRow acc { v with topicName := strL "*" }) rows

/-- Apply a sequence of store operations to the freshly created (empty)
table. -/
def applyStoreOps (ops : List StoreOp) : List VideoRow :=
  ops.foldl applyStoreOp []

/-- Number of rows carrying a given `(normalizedName, topicName)` key. -/
def keyCount (rows : List VideoRow) (n tp : Str) : Nat :=
  rows.countP (fun r => r.normalizedName == n && r.topicName == tp)

/-- One ignored-duplicate insert preserves the per-key row bound. -/
theorem keyCount_insertIgnoreRow_le (rows : List VideoRow) (r : VideoRow)
    (n tp : Str) (hle : keyCount rows n tp ≤ 1) :
    keyCount (insertIgnoreRow rows r) n tp ≤ 1 := by
  unfold insertIgnoreRow
  by_cases hany :
      (rows.any fun q => q.normalizedName == r.normalizedName && q.topicName == r.topicName) = true
  · rw [if_pos hany]; exact hle
  · rw [if_neg hany]
    have hfalse :
        (rows.any fun q => q.normalizedName == r.normalizedName && q.topicName == r.topicName) = false :=
      Bool.eq_false_iff.mpr hany
    unfold keyCount at hle ⊢
    rw [List.countP_append]
    by_cases hr : (r.normalizedName == n && r.topicName == tp) = true
    · have hreq : r.normalizedName = n ∧ r.topicName = tp := by
        simpa [Bool.and_eq_true, beq_iff_eq] using hr
      have hzero : rows.countP (fun q => q.normalizedName == n && q.topicName == tp) = 0 := by
        apply List.countP_eq_zero.mpr
        intro q hq hpq
        have hnotq := List.any_eq_false.mp hfalse q hq
        apply hnotq
        simp only [Bool.and_eq_true, beq_iff_eq] at hpq ⊢
        exact ⟨hpq.1.trans hreq.1.symm, hpq.2.trans hreq.2.symm⟩
      rw [hzero]
      simp [List.countP_cons, hr]
    · have hone : List.countP (fun q => q.normalizedName == n && q.topicName == tp) [r] = 0 := by
        simp [List.countP_cons, hr]
      rw [hone]
      simpa using hle
/-- Every store operation preserves the per-key row bound. -/
theorem keyCount_applyStoreOp_le (rows : List VideoRow) (op : StoreOp)
    (n tp : Str) (hle : keyCount rows n tp ≤ 1) :
    keyCount (applyStoreOp rows op) n tp ≤ 1 := by
  cases op with
  | put f t d s nn w h m =>
    simp only [applyStoreOp, saveProcessedVideoName]
    exact keyCount_insertIgnoreRow_le rows _ n tp hle
  | del names t =>
    simp only [applyStoreOp]
    unfold deleteVideosFromTopic keyCount
    split
    · exact hle
    · exact le_trans (List.Sublist.countP_le _ (List.filter_sublist rows)) hle
  | migrate vids =>
    simp only [applyStoreOp]
    induction vids generalizing rows with
    | nil => exact hle
    | cons v rest ih =>
      simp only [List.foldl_cons]
      exact ih _ (keyCount_insertIgnoreRow_le rows _ n tp hle)

/-- One ignored-duplicate insert is idempotent. -/
theorem insertIgnoreRow_idem (rows : List VideoRow) (r : VideoRow) :
    insertIgnoreRow (insertIgnoreRow rows r) r = insertIgnoreRow rows r := by
  unfold insertIgnoreRow
  by_cases hany :
      (rows.any fun q => q.normalizedName == r.normalizedName && q.topicName == r.topicName) = true
  · rw [if_pos hany, if_pos hany]
  · rw [if_neg hany]
    have happ :
        ((rows ++ [r]).any fun q => q.normalizedName == r.normalizedName && q.topicName == r.topicName) = true := by
      rw [List.any_append]
      simp
    rw [if_pos happ]

/-- Claim C2: starting from the freshly created table, any sequence of
`putVideo`, `deleteVideos` and legacy-migration operations leaves at most
one `processed_videos` row per `(normalizedName, topicName)` key (for the
wildcard topic `"*"` included, hence in particular for every topic other
than `"*"`), and `putVideo` is idempotent on the key: re-inserting the
same candidate is accepted and leaves the table unchanged. -/
theorem processedVideos_key_unique_and_put_idempotent :
    (∀ (ops : List StoreOp) (n tp : Str), keyCount (applyStoreOps ops) n tp ≤ 1) ∧
    (∀ (rows : List VideoRow) (f tp : Str) (d s : Option ℚ) (nn : Option Str)
       (w h : Option Nat) (m : Option Str),
      saveProcessedVideoName (saveProcessedVideoName rows f tp d s nn w h m) f tp d s nn w h m =
        saveProcessedVideoName rows f tp d s nn w h m) := by
  constructor
  · intro ops n tp
    unfold applyStoreOps
    have hgen : ∀ (l : List StoreOp) (rows : List VideoRow), keyCount rows n tp ≤ 1 →
        keyCount (l.foldl applyStoreOp rows) n tp ≤ 1 := by
      intro l
      induction l with
      | nil => intro rows hle; exact hle
      | cons op rest ih =>
        intro rows hle
        simp only [List.foldl_cons]
        exact ih _ (keyCount_applyStoreOp_le rows op n tp hle)
    exact hgen ops [] (by simp [keyCount])
  · intro rows f tp d s nn w h m
    simp only [saveProcessedVideoName]
    exact insertIgnoreRow_idem rows _

/-! ## Claim C5: monotonicity of the duplicate oracle in the policy flags -/

/-- The four metadata checks of the duplicate-detection policy. -/
inductive MetaCheck
  | duration
  | fileSize
  | resolution
  | mimeType
deriving DecidableEq

/-- Enable one metadata check, leaving the tolerances untouched. -/
def enableCheck : MetaCheck → DupOptions → DupOptions
  | MetaCheck.duration, o => { o with checkDuration := true }
  | MetaCheck.fileSize, o => { o with checkFileSize := true }
  | MetaCheck.resolution, o => { o with checkResolution := true }
  | MetaCheck.mimeType, o => { o with checkMimeType := true }

/-- A guarded test only gets harder when its guard is turned on. -/
theorem ifGuardMono : ∀ (b b2 x : Bool), (b = true → b2 = true) →
    ((if b2 then x else true) = true) → (if b then x else true) = true := by decide

/-- Duration component: rejection survives enabling another check. -/
theorem durCheckPass_enable (c : MetaCheck) (o : DupOptions) (d : Option ℚ)
    (row : VideoRow) (hp : durCheckPass (some (enableCheck c o)) d row = true) :
    durCheckPass (some o) d row = true := by
  unfold durCheckPass at hp ⊢
  have htol : optDurTol (some (enableCheck c o)) = optDurTol (some o) := by
    cases c <;> rfl
  rw [htol] at hp
  refine ifGuardMono _ _ _ ?_ hp
  intro hflag
  cases c
  · rfl
  · exact hflag
  · exact hflag
  · exact hflag

/-- Size component: rejection survives enabling another check. -/
theorem sizeCheckPass_enable (c : MetaCheck) (o : DupOptions) (s : Option ℚ)
    (row : VideoRow) (hp : sizeCheckPass (some (enableCheck c o)) s row = true) :
    sizeCheckPass (some o) s row = true := by
  unfold sizeCheckPass at hp ⊢
  have htol : optSizeTol (some (enableCheck c o)) = optSizeTol (some o) := by
    cases c <;> rfl
  rw [htol] at hp
  refine ifGuardMono _ _ _ ?_ hp
  intro hflag
  cases c
  · exact hflag
  · rfl
  · exact hflag
  · exact hflag

/-- Resolution component: rejection survives enabling another check. -/
theorem resCheckPass_enable (c : MetaCheck) (o : DupOptions) (w h : Option Nat)
    (row : VideoRow) (hp : resCheckPass (some (enableCheck c o)) w h row = true) :
    resCheckPass (some o) w h row = true := by
  unfold resCheckPass at hp ⊢
  have htol : optResTol (some (enableCheck c o)) = optResTol (some o) := by
    cases c <;> rfl
  rw [htol] at hp
  refine ifGuardMono _ _ _ ?_ hp
  intro hflag
  cases c
  · exact hflag
  · exact hflag
  · rfl
  · exact hflag

/-- MIME component: rejection survives enabling another check. -/
theorem mimeCheckPass_enable (c : MetaCheck) (o : DupOptions) (m : Option Str)
    (row : VideoRow) (hp : mimeCheckPass (some (enableCheck c o)) m row = true) :
    mimeCheckPass (some o) m row = true := by
  unfold mimeCheckPass at hp ⊢
  refine ifGuardMono _ _ _ ?_ hp
  intro hflag
  cases c
  · exact hflag
  · exact hflag
  · exact hflag
  · rfl

/-- Claim C5 (amended): the exact-name acceptance test of the oracle is
monotone in the policy flags — a row with the candidate's exact normalized
name that is rejected under a set of enabled checks stays rejected when
one more check is enabled (equivalently, acceptance under the larger set
implies acceptance under the smaller).  The oracle as a whole is NOT
monotone, because enabling a check can activate the near-name and
metadata-fallback scans (see the counterexample). -/
theorem exactRowAccept_monotone (o : DupOptions) (c : MetaCheck)
    (d s : Option ℚ) (w h : Option Nat) (m : Option Str) (row : VideoRow)
    (hacc : exactRowAccept (some (enableCheck c o)) d s w h m row = true) :
    exactRowAccept (some o) d s w h m row = true := by
  by_cases hnc : noChecksEnabled (some o) = true
  · unfold exactRowAccept
    rw [if_pos hnc]
  · have hnc2 : noChecksEnabled (some (enableCheck c o)) = false := by
      cases c <;>
        simp [noChecksEnabled, enableCheck, optCheckDuration, optCheckFileSize,
              optCheckResolution, optCheckMimeType]
    unfold exactRowAccept at hacc ⊢
    rw [hnc2] at hacc
    simp only [Bool.false_eq_true, if_false, Bool.and_eq_true] at hacc
    obtain ⟨⟨⟨h1, h2⟩, h3⟩, h4⟩ := hacc
    rw [if_neg hnc]
    simp only [Bool.and_eq_true]
    exact ⟨⟨⟨durCheckPass_enable c o d row h1, sizeCheckPass_enable c o s row h2⟩,
            resCheckPass_enable c o w h row h3⟩, mimeCheckPass_enable c o m row h4⟩

/-- The near-name store row used by the C5 counterexample. -/
def c5Row : VideoRow :=
  { fileName := strL "fookeywordx.mp4", normalizedName := strL "fookeywordx",
    topicName := strL "k", duration := some 600 }

/-- Claim C5 (counterexample): with no metadata checks enabled the oracle
reports no duplicate for the candidate `fookeyword` (no exact-name row),
but enabling the single additional duration check activates the near-name
scan (similarity 10/11 ≥ 0.85, durations equal) and reports `c5Row` — a
not-duplicate verdict turned into a duplicate verdict by enabling one
check. -/
theorem findAllSimilar_not_monotone :
    findAllSimilarVideosInTopic [c5Row] (strL "fookeyword") (strL "k")
      (some 600) (some 100) (some {}) none none none = [] ∧
    findAllSimilarVideosInTopic [c5Row] (strL "fookeyword") (strL "k")
      (some 600) (some 100) (some (enableCheck MetaCheck.duration {})) none none none ≠ [] := by
  exact ⟨by with_unfolding_all decide, by with_unfolding_all decide⟩

/-- The exact-name row used by the C5 witness. -/
def c5WitnessRow : VideoRow :=
  { fileName := strL "w.mp4", normalizedName := strL "w", topicName := strL "k",
    duration := some 600, sizeMB := some 100 }

/-- Witness for the amended C5: a row accepted under duration+size checks
is accepted under the duration check alone. -/
theorem exactRowAccept_monotone_witness :
    exactRowAccept (some (enableCheck MetaCheck.fileSize { checkDuration := true }))
      (some 600) (some 100) none none none c5WitnessRow = true ∧
    exactRowAccept (some { checkDuration := true })
      (some 600) (some 100) none none none c5WitnessRow = true := by
  refine ⟨by with_unfolding_all decide, ?_⟩
  exact exactRowAccept_monotone { checkDuration := true } MetaCheck.fileSize
    (some 600) (some 100) none none none c5WitnessRow (by with_unfolding_all decide)

/-! ## Claim C9: empty normalized names in the duplicate oracle -/

/-- Claim C9 (amended, positive half): with no metadata checks enabled the
oracle reports only rows whose normalized name equals the candidate's
exactly (only the exact-name pass runs), so a row with an empty normalized
name is never reported for a candidate with a non-empty one. -/
theorem findAll_noChecks_name_exact (rows : List VideoRow) (nn tp : Str)
    (d s : Option ℚ) (o : Option DupOptions) (w h : Option Nat) (m : Option Str)
    (hnc : noChecksEnabled o = true) (hnn : nn ≠ []) :
    ∀ r ∈ findAllSimilarVideosInTopic rows nn tp d s o w h m,
      r.normalizedName ≠ [] := by
  intro r hr
  have hflags : optCheckDuration o = false ∧ optCheckFileSize o = false ∧
      optCheckResolution o = false ∧ optCheckMimeType o = false := by
    unfold noChecksEnabled at hnc
    simp only [Bool.and_eq_true, Bool.not_eq_true'] at hnc
    exact ⟨hnc.1.1.1, hnc.1.1.2, hnc.1.2, hnc.2⟩
  have hguard : nearGuard o d s w h m = false := by
    unfold nearGuard
    rw [hflags.1, hflags.2.1, hflags.2.2.1, hflags.2.2.2]
    rfl
  unfold findAllSimilarVideosInTopic at hr
  rw [hguard] at hr
  simp only [Bool.false_eq_true, if_false] at hr
  have h1 := List.mem_filter.mp hr
  have h2 := List.mem_filter.mp h1.1
  have hname : r.normalizedName = nn := by
    have := h2.2
    simp only [Bool.and_eq_true, beq_iff_eq] at this
    exact this.1
  rw [hname]
  exact hnn

/-- A store row with an empty normalized name. -/
def c9Row : VideoRow :=
  { fileName := strL "x.mp4", normalizedName := [], topicName := strL "k" }

/-- Claim C9 (counterexample): the oracle DOES report a stored row with an
empty normalized name as a duplicate of a candidate whose normalized name
is empty — the exact-name pass compares the two empty strings as equal
(and `calculateSimilarity` returns 1 on them). -/
theorem findAll_empty_vs_empty_matches :
    c9Row ∈ findAllSimilarVideosInTopic [c9Row] [] (strL "k")
      none none none none none none ∧
    c9Row.normalizedName = [] := by
  exact ⟨by decide, rfl⟩

/-- Witness for the amended C9 at a concrete store and candidate. -/
theorem findAll_noChecks_name_exact_witness :
    noChecksEnabled (some {}) = true ∧ strL "abc" ≠ [] ∧
    (∀ r ∈ findAllSimilarVideosInTopic [c9Row] (strL "abc") (strL "k")
        none none (some {}) none none none, r.normalizedName ≠ []) := by
  refine ⟨by decide, by decide, ?_⟩
  exact findAll_noChecks_name_exact [c9Row] (strL "abc") (strL "k")
    none none (some {}) none none none (by decide) (by decide)

/-! ## Claim C7: the video predicate -/

/-- A message whose document carries a video attribute with duration 600
and a matching filename, but whose media is NOT flagged `video` by the
protocol (disjunct (b) of the spec only). -/
def c7Msg : VideoMessage :=
  { media := some { document := some (mkDoc "Keyword.mp4" 600), video := false },
    message := none, id := 1 }

/-- Claim C7 (counterexample): the predicate rejects a message that
carries a document with a video attribute and duration but lacks the
protocol `video` flag, even though it passes the duration and keyword
tests — the acceptance condition is conjunctive, not the claimed
disjunction. -/
theorem matchesVideo_rejects_attr_only :
    matchesVideo c7Msg [strL "keyword"] [] 300 = [] ∧
    getVideoDuration (some (mkDoc "Keyword.mp4" 600)) = some 600 ∧
    hasSubstr (lowerStr (getFileName (some (mkDoc "Keyword.mp4" 600)))) (strL "keyword") = true := by
  exact ⟨by decide, by decide, by decide⟩

/-- Claim C7 (amended): the predicate accepts only messages whose media
carries a document AND the protocol `video` flag AND a video attribute
with a truthy duration not below the minimum — every accepted message
satisfies the conjunction, so disjunct (b) alone is never accepted. -/
theorem matchesVideo_requires_flag_and_duration (msg : VideoMessage)
    (ml ex : List Str) (minD : ℚ) (hne : matchesVideo msg ml ex minD ≠ []) :
    ∃ media document, msg.media = some media ∧ media.document = some document ∧
      media.video = true ∧
      ∃ d, getVideoDuration (some document) = some d ∧ d ≠ 0 ∧ ¬ d < minD := by
  obtain ⟨mediaOpt, mtext, mid⟩ := msg
  cases mediaOpt with
  | none => exact absurd rfl hne
  | some media =>
    obtain ⟨docOpt, vflag⟩ := media
    cases docOpt with
    | none => exact absurd rfl hne
    | some document =>
      cases vflag with
      | false => exact absurd rfl hne
      | true =>
        unfold matchesVideo at hne
        dsimp only at hne
        cases hdur : getVideoDuration (some document) with
        | none =>
          rw [hdur] at hne
          exact absurd rfl hne
        | some dd =>
          rw [hdur] at hne
          dsimp only at hne
          by_cases hcond : dd = 0 ∨ dd < minD
          · have hb : (decide (dd = 0) || decide (dd < minD)) = true := by
              rcases hcond with hc | hc <;> simp [hc]
            rw [hb] at hne
            exact absurd rfl hne
          · have h0 : ¬ dd = 0 := fun hc => hcond (Or.inl hc)
            have hlt : ¬ dd < minD := fun hc => hcond (Or.inr hc)
            exact ⟨{ document := some document, video := true }, document,
              rfl, rfl, rfl, dd, hdur, h0, hlt⟩

/-- Witness for the amended C7: the flagged variant of the same message is
accepted, and the theorem recovers the conjunction from acceptance. -/
theorem matchesVideo_requires_flag_witness :
    matchesVideo (mkVideoMsg 1 "Keyword.mp4" 600) [strL "keyword"] [] 300 ≠ [] ∧
    (∃ media document,
      (mkVideoMsg 1 "Keyword.mp4" 600).media = some media ∧
      media.document = some document ∧ media.video = true ∧
      ∃ d, getVideoDuration (some document) = some d ∧ d ≠ 0 ∧ ¬ d < 300) := by
  refine ⟨by decide, ?_⟩
  exact matchesVideo_requires_flag_and_duration (mkVideoMsg 1 "Keyword.mp4" 600)
    [strL "keyword"] [] 300 (by decide)

/-! ## Claim C8: the rate-limit driver -/

/-- A generic network error: neither `FLOOD_WAIT` nor error code 420. -/
def c8Gen : RpcError := { errorMessage := some (strL "ECONNRESET") }

/-- An error code 420 without a seconds hint. -/
def c8E420 : RpcError := { code := some 420 }

/-- Claim C8 (counterexample): on a generic network error the driver does
NOT sleep 5 s and request a retry — it returns immediately with no sleep
and no retry. -/
theorem handleRateLimit_no_retry_generic :
    handleRateLimit c8Gen 0 = (false, none) ∧
    handleRateLimit c8Gen 0 ≠ (true, some 5000) := by
  exact ⟨by decide, by decide⟩

/-- Claim C8 (amended): for error code 420 (or `FLOOD_WAIT`) without a
truthy seconds hint the driver sleeps `2^attempt * 5000` ms (5 s, 10 s,
20 s for attempts 0, 1, 2) and requests a retry exactly while
`attempt < 3`; an error that is neither `FLOOD_WAIT` nor code 420 is
surfaced immediately with no sleep and no retry. -/
theorem handleRateLimit_amended :
    (∀ (e : RpcError) (attempt : Nat),
      (e.errorMessage = some (strL "FLOOD_WAIT") ∨ e.code = some 420) →
      truthyQ e.seconds = false →
      handleRateLimit e attempt = (decide (attempt < 3), some (2 ^ attempt * 5000))) ∧
    (∀ (e : RpcError) (attempt : Nat),
      e.errorMessage ≠ some (strL "FLOOD_WAIT") → e.code ≠ some 420 →
      handleRateLimit e attempt = (false, none)) := by
  constructor
  · intro e attempt hcond hsec
    unfold handleRateLimit
    have hguard : (e.errorMessage == some (strL "FLOOD_WAIT") || e.code == some 420) = true := by
      rcases hcond with hc | hc <;> simp [hc]
    rw [if_pos hguard]
    cases hs : e.seconds with
    | none => rfl
    | some s =>
      have hs0 : s = 0 := by
        unfold truthyQ at hsec
        rw [hs] at hsec
        simpa using hsec
      simp [hs0]
  · intro e attempt h1 h2
    unfold handleRateLimit
    have hguard : (e.errorMessage == some (strL "FLOOD_WAIT") || e.code == some 420) = false := by
      rw [Bool.or_eq_false_iff]
      exact ⟨beq_eq_false_iff_ne.mpr h1, beq_eq_false_iff_ne.mpr h2⟩
    rw [if_neg (by simp [hguard])]

/-- Witness for the amended C8: code 420 without seconds sleeps 5 s and
retries at attempt 0; a generic error surfaces at once. -/
theorem handleRateLimit_amended_witness :
    handleRateLimit c8E420 0 = (decide (0 < 3), some (2 ^ 0 * 5000)) ∧
    handleRateLimit c8Gen 1 = (false, none) := by
  exact ⟨handleRateLimit_amended.1 c8E420 0 (Or.inr rfl) rfl,
         handleRateLimit_amended.2 c8Gen 1 (by decide) (by decide)⟩

/-! ## Claims C4 and C10: forwardToTopics -/

/-- Looking up the key just set finds the new value. -/
theorem lookupD_setAssoc_self [BEq α] [LawfulBEq α] (l : List (α × β)) (k : α) (v d : β) :
    lookupD (setAssoc l k v) k d = v := by
  unfold setAssoc
  by_cases hany : (l.any fun p => p.1 == k) = true
  · rw [if_pos hany]
    have hfind : ∀ (l2 : List (α × β)), (l2.any fun p => p.1 == k) = true →
        (l2.map (fun p => if p.1 == k then (k, v) else p)).find? (fun p => p.1 == k) = some (k, v) := by
      intro l2 hl2
      induction l2 with
      | nil => simp at hl2
      | cons p t ih =>
        simp only [List.map_cons]
        by_cases hp : (p.1 == k) = true
        · rw [if_pos hp]
          simp [List.find?]
        · rw [if_neg hp]
          have hpf : (p.1 == k) = false := Bool.eq_false_iff.mpr hp
          simp only [List.find?, hpf]
          apply ih
          simp only [List.any_cons, hp, Bool.false_or] at hl2
          exact hl2
    unfold lookupD
    rw [hfind l hany]
  · rw [if_neg hany]
    have hfalse : (l.any fun p => p.1 == k) = false := Bool.eq_false_iff.mpr hany
    have hnone : l.find? (fun p => p.1 == k) = none := by
      apply List.find?_eq_none.mpr
      intro p hp
      exact fun hpk => (List.any_eq_false.mp hfalse p hp) hpk
    unfold lookupD
    rw [List.find?_append, hnone]
    simp

/-- Setting one key does not change the lookup of a different key. -/
theorem lookupD_setAssoc_ne [BEq α] [LawfulBEq α] (l : List (α × β)) (k k2 : α)
    (v d : β) (h : ¬ k2 = k) : lookupD (setAssoc l k v) k2 d = lookupD l k2 d := by
  have hkk2 : (k == k2) = false := beq_eq_false_iff_ne.mpr (fun he => h he.symm)
  unfold setAssoc
  by_cases hany : (l.any fun p => p.1 == k) = true
  · rw [if_pos hany]
    have hfind : ∀ (l2 : List (α × β)),
        (l2.map (fun p => if p.1 == k then (k, v) else p)).find? (fun p => p.1 == k2) =
          l2.find? (fun p => p.1 == k2) := by
      intro l2
      induction l2 with
      | nil => rfl
      | cons p t ih =>
        simp only [List.map_cons]
        by_cases hp : (p.1 == k) = true
        · rw [if_pos hp]
          have hpeq : p.1 = k := eq_of_beq hp
          have hp2f : (p.1 == k2) = false := by rw [hpeq]; exact hkk2
          simp only [List.find?, hkk2, hp2f]
          exact ih
        · rw [if_neg hp]
          by_cases hp2 : (p.1 == k2) = true
          · simp only [List.find?, hp2]
          · have hp2f : (p.1 == k2) = false := Bool.eq_false_iff.mpr hp2
            simp only [List.find?, hp2f]
            exact ih
    unfold lookupD
    rw [hfind l]
  · rw [if_neg hany]
    unfold lookupD
    rw [List.find?_append]
    have hlast : List.find? (fun p => p.1 == k2) [(k, v)] = none := by
      simp [List.find?_cons, hkk2]
    rw [hlast]
    cases l.find? (fun p => p.1 == k2) <;> rfl

/-- Bumping one topic's counter increments that topic's lookup. -/
theorem lookupD_bumpStat_self (stats : List (Str × Nat)) (t : Str) :
    lookupD (bumpStat stats t) t 0 = lookupD stats t 0 + 1 := by
  unfold bumpStat
  exact lookupD_setAssoc_self stats t _ 0

/-- Bumping one topic's counter leaves other topics' lookups unchanged. -/
theorem lookupD_bumpStat_ne (stats : List (Str × Nat)) (t u : Str) (h : ¬ u = t) :
    lookupD (bumpStat stats t) u 0 = lookupD stats u 0 := by
  unfold bumpStat
  exact lookupD_setAssoc_ne stats t u _ 0 h

/-- The dry-run statistics fold: trace, store and counters untouched;
each topic's statistic grows by its number of occurrences in the list. -/
theorem dryRunFold (tops : List Str) (st : ScanState) :
    (tops.foldl (fun s ms => { s with forwardStats := bumpStat s.forwardStats ms }) st).trace = st.trace ∧
    (∀ t, lookupD (tops.foldl (fun s ms => { s with forwardStats := bumpStat s.forwardStats ms }) st).forwardStats t 0 =
      lookupD st.forwardStats t 0 + tops.count t) := by
  induction tops generalizing st with
  | nil =>
    exact ⟨rfl, fun t => by simp [List.count_nil]⟩
  | cons ms rest ih =>
    simp only [List.foldl_cons]
    refine ⟨(ih _).1, fun t => ?_⟩
    rw [(ih _).2 t]
    dsimp only
    by_cases ht : t = ms
    · subst ht
      rw [lookupD_bumpStat_self, List.count_cons_self]
      omega
    · rw [lookupD_bumpStat_ne _ _ _ ht, List.count_cons_of_ne ht]

/-- Claim C10: in dry-run mode `forwardToTopics` issues no forward RPC
(the trace is unchanged), increments the per-topic statistics once per
occurrence of each target topic, and returns true — so `processSource`
(line 428) still increments the run's forwarded counter and consumes the
max-forwards budget exactly as a successful real forward would. -/
theorem forwardToTopics_dryRun (cfg : SortingConfig) (env : ScanEnv)
    (st : ScanState) (messageId : Nat) (forumGroupId : Int)
    (topicIds : List (Str × Nat)) (tops : List Str) (meta : VideoMetadata)
    (hdry : cfg.dryRun = true) :
    (forwardToTopics cfg env st messageId forumGroupId topicIds tops meta).2 = true ∧
    (forwardToTopics cfg env st messageId forumGroupId topicIds tops meta).1.trace = st.trace ∧
    (∀ t, lookupD (forwardToTopics cfg env st messageId forumGroupId topicIds tops meta).1.forwardStats t 0 =
      lookupD st.forwardStats t 0 + tops.count t) := by
  unfold forwardToTopics
  have hg1 : (!cfg.dryRun && forumGroupId != 0) = false := by rw [hdry]; rfl
  simp only [hg1, Bool.false_eq_true, if_false, hdry, if_true]
  exact ⟨rfl, (dryRunFold tops st).1, (dryRunFold tops st).2⟩

/-- Witness metadata for the forwardToTopics theorems. -/
def c4Meta : VideoMetadata := { fileName := strL "m.mp4", normalizedName := strL "m" }

/-- Witness for C10 at a concrete dry-run configuration. -/
theorem forwardToTopics_dryRun_witness :
    ({ dryRun := true } : SortingConfig).dryRun = true ∧
    ((forwardToTopics { dryRun := true } {} {} 9 1 [(strL "a", 1)] [strL "a"] c4Meta).2 = true ∧
     (forwardToTopics { dryRun := true } {} {} 9 1 [(strL "a", 1)] [strL "a"] c4Meta).1.trace = ({} : ScanState).trace ∧
     (∀ t, lookupD (forwardToTopics { dryRun := true } {} {} 9 1 [(strL "a", 1)] [strL "a"] c4Meta).1.forwardStats t 0 =
       lookupD ({} : ScanState).forwardStats t 0 + [strL "a"].count t)) :=
  ⟨rfl, forwardToTopics_dryRun { dryRun := true } {} {} 9 1 [(strL "a", 1)] [strL "a"] c4Meta rfl⟩

/-- Claim C4 (amended): outside dry-run (with a truthy forum group id) the
boolean driving `processSource`'s forwarded counter (line 428) is
`results.every(r => r.success)` — the candidate is counted iff EVERY
matched topic's forward succeeded, not when at least one did. -/
theorem forwardToTopics_counts_all_success (cfg : SortingConfig) (env : ScanEnv)
    (st : ScanState) (messageId : Nat) (forumGroupId : Int)
    (topicIds : List (Str × Nat)) (tops : List Str) (meta : VideoMetadata)
    (hdry : cfg.dryRun = false) (hgid : forumGroupId ≠ 0) :
    (forwardToTopics cfg env st messageId forumGroupId topicIds tops meta).2 =
      tops.all (fun t => lookupD env.forwardOk (messageId, lookupD topicIds t 0) false) := by
  unfold forwardToTopics
  have hguard : (!cfg.dryRun && forumGroupId != 0) = true := by
    rw [hdry]
    simp [bne_iff_ne, hgid]
  rw [if_pos hguard]
  dsimp only
  have hall : ∀ (ts : List Str),
      ((ts.map (fun ms => (lookupD env.forwardOk (messageId, lookupD topicIds ms 0) false,
          ms, lookupD topicIds ms 0))).all fun x => x.1) =
        ts.all (fun t => lookupD env.forwardOk (messageId, lookupD topicIds t 0) false) := by
    intro ts
    induction ts with
    | nil => rfl
    | cons a r ih => simp only [List.map_cons, List.all_cons, ih]
  exact hall tops

/-- C4 counterexample environment: topic `a` succeeds, topic `b` fails. -/
def c4Env : ScanEnv := { forwardOk := [((9, 1), true), ((9, 2), false)] }

/-- Claim C4 (counterexample): one of the two matched topics' forwards
succeeded (topic `a`, whose statistic is incremented), yet
`forwardToTopics` returns false, so the run's forward counter is NOT
incremented for this source message. -/
theorem forwardToTopics_partial_success_not_counted :
    (forwardToTopics { dryRun := false } c4Env {} 9 1
        [(strL "a", 1), (strL "b", 2)] [strL "a", strL "b"] c4Meta).2 = false ∧
    lookupD (forwardToTopics { dryRun := false } c4Env {} 9 1
        [(strL "a", 1), (strL "b", 2)] [strL "a", strL "b"] c4Meta).1.forwardStats (strL "a") 0 = 1 := by
  exact ⟨by decide, by decide⟩

/-- Witness for the amended C4 at a concrete environment. -/
theorem forwardToTopics_counts_all_success_witness :
    ({ dryRun := false } : SortingConfig).dryRun = false ∧ (1 : Int) ≠ 0 ∧
    (forwardToTopics { dryRun := false } c4Env {} 9 1
        [(strL "a", 1), (strL "b", 2)] [strL "a", strL "b"] c4Meta).2 =
      [strL "a", strL "b"].all
        (fun t => lookupD c4Env.forwardOk (9, lookupD [(strL "a", 1), (strL "b", 2)] t 0) false) :=
  ⟨rfl, by decide,
   forwardToTopics_counts_all_success { dryRun := false } c4Env {} 9 1
     [(strL "a", 1), (strL "b", 2)] [strL "a", strL "b"] c4Meta rfl (by decide)⟩

/-! ## Claim C3: scenario S7 (max-forwards cap) -/

/-- Claim C3 (counterexample): in scenario S7 the scanner does NOT commit
exactly two processed-message rows — the candidate that trips the cap is
pre-committed (line 323) before the cap check (line 335), so three rows
exist. -/
theorem s7_message_rows_not_two : s7Run.msgRows.length ≠ 2 := by decide

/-- Claim C3 (amended): in scenario S7 the scanner performs exactly two
forwards (to the two newest candidates), commits processed-message rows
for THREE candidates — the two forwarded ones plus the third, which is
pre-committed before the cap check fires — and halts the scan
(`hasMore = false`, breaking out of the batch) at that third matching
candidate, leaving the fourth untouched. -/
theorem s7_two_forwards_three_rows :
    s7Run.forwarded = 2 ∧
    countForwards s7Run.trace = 2 ∧
    s7Run.trace.any (isForwardFor (strL "alphakeyword") (strL "keyword")) = true ∧
    s7Run.trace.any (isForwardFor (strL "betakeyword") (strL "keyword")) = true ∧
    s7Run.msgRows = [msgKey 555 104, msgKey 555 103, msgKey 555 102] ∧
    s7Run.msgRows.contains (msgKey 555 101) = false := by
  exact ⟨by decide, by decide, by decide, by decide, by decide, by decide⟩

/-! ## Claim C1: pre-registration before the forward RPC -/

/-- Claim C1: the run `c1Run` issues a forward RPC for the pair
`(fookeyword, foo)` although no putVideo write for that pair ever happens
(the pre-registration of line 383 covers only the topics with NO detected
duplicate, and the pre-registered `(fookeyword, keyword)` row is deleted
again by `findAndDeleteDuplicatesInTopic`, which re-detects the
just-inserted row as a duplicate of itself and, finding no matching
Telegram message, removes it from the store at line 141 before the fan-out
of line 417 starts).  Afterwards the store holds no row at all for the
forwarded video. -/
theorem forward_without_putVideo_row :
    c1Run.trace.any (isForwardFor (strL "fookeyword") (strL "foo")) = true ∧
    c1Run.trace.any (isPutVideoFor (strL "fookeyword") (strL "foo")) = false ∧
    putPrecedesForwards c1Run.trace = false ∧
    c1Run.videoRows = [] ∧
    c1Run.forwarded = 1 := by
  with_unfolding_all decide
